import Mathlib

/-!
# vault-plugin-secrets-cloudflare: a shallow embedding of the request handlers

The handlers of the plugin are embedded as pure functions.  A handler takes the
collaborators it talks to (the Cloudflare API, the storage of the mount, the
clock) as explicit arguments and returns a `Run`: the `(response, error)` pair
of the Go function, the storage after the call and the list of effects
(remote calls, storage writes) in the order the Go code performs them.

Conventions
* a Go `string` is a Lean `String`; where the Go code works on bytes
  (`createTokenName`) the bytes are taken with `String.toUTF8`;
* a `time.Time` is an `Int`, the number of nanoseconds since the Unix epoch, and
  a `time.Duration` is an `Int` number of nanoseconds;
* a run-time panic (nil pointer dereference) is the `Result.panic` outcome.
-/

namespace Cloudflare

/-! ## Storage (`logical.Storage`) -/

/-- A member value of a stored JSON object. -/
inductive JSONValue where
  | str (s : String)
  | num (n : Int)
  deriving DecidableEq, Repr

/-- The `Value` bytes of a `logical.StorageEntry`, taken as the JSON document they
hold: an object (a finite map from member name to value, first binding wins) or
bytes that `DecodeJSON` rejects. -/
inductive StorageValue where
  | object (members : List (String × JSONValue))
  | malformed
  deriving DecidableEq, Repr

/-- The storage of the mount: its entries, and whether the backing store
currently fails its reads (`Get`) or its writes (`Put`, `Delete`). -/
structure Storage where
  entries : List (String × StorageValue)
  getFault : Option String
  putFault : Option String
  deriving DecidableEq, Repr

/-- The entry stored under `key`, if any (no I/O: the content of the store). -/
def Storage.stored (s : Storage) (key : String) : Option StorageValue :=
  s.entries.lookup key

/-- The call `storage.Get(ctx, key)`. -/
def Storage.Get (s : Storage) (key : String) : Except String (Option StorageValue) :=
  match s.getFault with
  | some e => .error e
  | none => .ok (s.stored key)

/-- The call `storage.Put(ctx, entry)`. -/
def Storage.Put (s : Storage) (key : String) (value : StorageValue) : Except String Storage :=
  match s.putFault with
  | some e => .error e
  | none => .ok { s with entries := (key, value) :: s.entries.filter (fun kv => kv.1 != key) }

/-- The call `storage.Delete(ctx, key)`. -/
def Storage.Delete (s : Storage) (key : String) : Except String Storage :=
  match s.putFault with
  | some e => .error e
  | none => .ok { s with entries := s.entries.filter (fun kv => kv.1 != key) }

/-- Decoding of one string field of a Go struct from a stored JSON object: an
absent member leaves the zero value, a member of another type is an error. -/
def decodeStringField (members : List (String × JSONValue)) (field : String) :
    Except String String :=
  match members.lookup field with
  | none => .ok ""
  | some (.str s) => .ok s
  | some (.num _) => .error ("json: cannot unmarshal number into Go struct field " ++ field)

/-! ## Responses (`logical.Response`) -/

/-- The fields of a lease secret (`logical.Secret`) that the plugin reads or sets.
`InternalData` is the whole internal map, the `secret_type` member the framework
adds included; `IssueTime` is in nanoseconds since the Unix epoch.  The renewable
flag is not represented. -/
structure Secret where
  InternalData : List (String × String)
  TTL : Int
  MaxTTL : Int
  Increment : Int
  IssueTime : Int
  deriving DecidableEq, Repr

/-- A `logical.Response`: its data map and its secret (`none` is the nil pointer). -/
structure Response where
  Data : List (String × String)
  Secret : Option Secret
  deriving DecidableEq, Repr

/-- The response `logical.ErrorResponse(msg)`. -/
def ErrorResponse (msg : String) : Response :=
  { Data := [("error", msg)], Secret := none }

/-- The method `resp.IsError()`: the data holds an `error` member alone, or an
`error` and a `data` member alone. -/
def Response.IsError (r : Response) : Bool :=
  (r.Data.lookup "error").isSome &&
    (r.Data.length == 1 || ((r.Data.lookup "data").isSome && r.Data.length == 2))

/-- The `(*logical.Response, error)` pair a handler returns, or the panic that
ends it. -/
inductive Result where
  | ok (resp : Option Response)
  | err (e : String)
  | panic (msg : String)
  deriving DecidableEq, Repr

/-! ## The Cloudflare API (`cloudflare.API`) -/

/-- An error returned by the Cloudflare client: an `*APIRequestError` with its HTTP
status, any other error, or an error wrapping another one (`%w`). -/
inductive CfError where
  | apiRequest (statusCode : Nat) (msg : String)
  | other (msg : String)
  | wrap (msg : String) (inner : CfError)
  deriving DecidableEq, Repr

/-- The text `err.Error()`. -/
def CfError.Error : CfError → String
  | .apiRequest _ msg => msg
  | .other msg => msg
  | .wrap msg inner => msg ++ ": " ++ inner.Error

/-- A client `*cloudflare.API`, identified by the token it authenticates with. -/
structure API where
  APIToken : String
  deriving DecidableEq, Repr

/-- The body of a verify-token response. -/
structure APITokenVerifyBody where
  ID : String
  Status : String
  deriving DecidableEq, Repr

/-- The request-IP condition of a token. -/
structure APITokenCondition where
  In : List String
  NotIn : List String
  deriving DecidableEq, Repr

/-- One policy of a token. -/
structure APITokenPolicies where
  ID : String
  Effect : String
  Resources : List (String × String)
  PermissionGroups : List String
  deriving DecidableEq, Repr

/-- The fields of `cloudflare.APIToken` the plugin sets or reads.  `Name` is a
byte string: `createTokenName` may cut it inside a multi-byte character. -/
structure APIToken where
  ID : String
  Name : List UInt8
  Value : String
  Policies : List APITokenPolicies
  Condition : Option APITokenCondition
  ExpiresOn : Option Int
  deriving DecidableEq, Repr

/-- The lease configuration `configLease`. -/
structure configLease where
  TTL : Int
  MaxTTL : Int
  deriving DecidableEq, Repr

/-- The collaborators outside this repository, as the handlers call them: the
remote token service, the TTL rule of the host, the lease configuration reader,
the JSON decoders of the request types (run on input the scanner has accepted),
the formatting verbs `%#v` and `%q`, and the Unicode branch of `strings.ToLower`. -/
structure Env where
  VerifyAPIToken : API → Except CfError APITokenVerifyBody
  RollAPIToken : API → String → String × Option CfError
  CreateAPIToken : API → APIToken → Except CfError APIToken
  UpdateAPIToken : API → String → APIToken → Except CfError APIToken
  DeleteAPIToken : API → String → Option CfError
  CalculateTTL : (increment backendTTL period backendMaxTTL explicitMaxTTL startTime : Int) →
    Except String Int
  LeaseConfig : Storage → Except String (Option configLease)
  decodeCondition : String → Except String APITokenCondition
  decodePolicies : String → Except String (List APITokenPolicies)
  goSyntax : APITokenVerifyBody → String
  quote : String → String
  unicodeToLower : String → String

/-- An effect of a handler: a call to the remote service or a storage write. -/
inductive Event where
  | VerifyAPIToken (c : API)
  | RollAPIToken (c : API) (tokenID : String)
  | CreateAPIToken (c : API) (token : APIToken)
  | UpdateAPIToken (c : API) (tokenID : String) (token : APIToken)
  | DeleteAPIToken (c : API) (tokenID : String)
  | StoragePut (key : String) (value : StorageValue)
  | StorageDelete (key : String)
  deriving DecidableEq, Repr

/-- Whether the effect is a storage write. -/
def Event.isWrite : Event → Bool
  | .StoragePut _ _ => true
  | .StorageDelete _ => true
  | _ => false

/-- What a handler did: its return value, the storage it leaves and its effects
in order. -/
structure Run where
  result : Result
  storage : Storage
  events : List Event
  deriving DecidableEq, Repr

/-! ## client.go -/

/-- The function `createClient`, that is `cloudflare.NewWithAPIToken(token)`: the
library refuses the empty token and otherwise returns a client holding it. -/
def createClient (token : String) : Except String API :=
  if token = "" then .error "invalid credentials: API Token must not be empty"
  else .ok { APIToken := token }

/-! ## path_config_token.go -/

/-- The constant `configTokenKey`. -/
def configTokenKey : String := "config/token"

/-- The struct `rootTokenConfig`. -/
structure rootTokenConfig where
  Token : String
  TokenID : String
  deriving DecidableEq, Repr

/-- The call `entry.DecodeJSON(conf)` for a `rootTokenConfig`. -/
def rootTokenConfig.DecodeJSON : StorageValue → Except String rootTokenConfig
  | .malformed => .error "invalid character looking for beginning of value"
  | .object members =>
    match decodeStringField members "token" with
    | .error e => .error e
    | .ok token =>
      match decodeStringField members "id" with
      | .error e => .error e
      | .ok id => .ok { Token := token, TokenID := id }

/-- The value of `logical.StorageEntryJSON(configTokenKey, conf)`. -/
def rootTokenConfig.EncodeJSON (conf : rootTokenConfig) : StorageValue :=
  .object [("token", .str conf.Token), ("id", .str conf.TokenID)]

/-- The method `readConfigToken`: `none` is the nil configuration. -/
def readConfigToken (storage : Storage) : Except String (Option rootTokenConfig) :=
  match storage.Get configTokenKey with
  | .error e => .error e
  | .ok none => .ok none
  | .ok (some entry) =>
    match rootTokenConfig.DecodeJSON entry with
    | .error e => .error ("error reading nomad access configuration: " ++ e)
    | .ok conf => .ok (some conf)

/-- The outcome of `b.client`: a client, an error, or the panic of reading
`conf.Token` through a nil `conf`. -/
inductive ClientResult where
  | ok (c : API)
  | err (e : String)
  | panic (msg : String)
  deriving DecidableEq, Repr

/-- The text of the run-time panic of a nil pointer dereference. -/
def nilDereference : String :=
  "runtime error: invalid memory address or nil pointer dereference"

/-- The method `backend.client` of client.go: it reads the root configuration and
builds a client from `conf.Token` without testing `conf` for nil. -/
def client (s : Storage) : ClientResult :=
  match readConfigToken s with
  | .error e => .err e
  | .ok none => .panic nilDereference
  | .ok (some conf) =>
    match createClient conf.Token with
    | .error e => .err e
    | .ok c => .ok c

/-- The request fields of `config/token`: `token` as `data.GetOk` sees it. -/
structure ConfigTokenData where
  token : Option String
  deriving DecidableEq, Repr

/-- The handler `pathConfigTokenWrite`. -/
def pathConfigTokenWrite (env : Env) (storage : Storage) (data : ConfigTokenData) : Run :=
  match readConfigToken storage with
  | .error e => ⟨.err e, storage, []⟩
  | .ok conf? =>
    let conf : rootTokenConfig := conf?.getD { Token := "", TokenID := "" }
    match data.token with
    | none => ⟨.ok (some (ErrorResponse "Missing 'token' in configuration request")), storage, []⟩
    | some token =>
      let conf := { conf with Token := token }
      match createClient conf.Token with
      | .error e => ⟨.err e, storage, []⟩
      | .ok c =>
        match env.VerifyAPIToken c with
        | .error e =>
          ⟨.ok (some (ErrorResponse ("encountered error when verifying token: " ++ e.Error))),
            storage, [.VerifyAPIToken c]⟩
        | .ok resp =>
          if resp.Status ≠ "active" then
            ⟨.ok (some (ErrorResponse
              ("provided token is not currently active. resp:" ++ env.goSyntax resp))),
              storage, [.VerifyAPIToken c]⟩
          else
            let conf := { conf with TokenID := resp.ID }
            let entry := conf.EncodeJSON
            match storage.Put configTokenKey entry with
            | .error e =>
              ⟨.err e, storage, [.VerifyAPIToken c, .StoragePut configTokenKey entry]⟩
            | .ok storage' =>
              ⟨.ok none, storage', [.VerifyAPIToken c, .StoragePut configTokenKey entry]⟩

/-! ## path_config_rotate_root.go -/

/-- The handler `pathConfigRotateRootUpdate`.  The error of `RollAPIToken` is
assigned and never tested: the value it returned is stored whatever happened. -/
def pathConfigRotateRootUpdate (env : Env) (storage : Storage) : Run :=
  match client storage with
  | .panic msg => ⟨.panic msg, storage, []⟩
  | .err e => ⟨.err e, storage, []⟩
  | .ok c =>
    match storage.Get configTokenKey with
    | .error e => ⟨.err e, storage, []⟩
    | .ok none => ⟨.err "no configuration found for config/token", storage, []⟩
    | .ok (some tokenConfig) =>
      match rootTokenConfig.DecodeJSON tokenConfig with
      | .error e => ⟨.err ("error reading root configuration: " ++ e), storage, []⟩
      | .ok config =>
        if config.Token = "" then
          ⟨.ok (some (ErrorResponse "Cannot call config/rotate-root when token is empty")),
            storage, []⟩
        else
          let newTokenValue := (env.RollAPIToken c config.TokenID).1
          let config := { config with Token := newTokenValue }
          let newEntry := config.EncodeJSON
          match storage.Put configTokenKey newEntry with
          | .error e =>
            ⟨.err ("error saving new config/root: " ++ e), storage,
              [.RollAPIToken c config.TokenID, .StoragePut configTokenKey newEntry]⟩
          | .ok storage' =>
            ⟨.ok (some { Data := [("id", config.TokenID)], Secret := none }), storage',
              [.RollAPIToken c config.TokenID, .StoragePut configTokenKey newEntry]⟩

/-! ## The JSON scanner of the Go standard library (`encoding/json`)

`compactJSON` of path_roles.go is `json.Compact`, and `json.Unmarshal` first
checks its input with the same scanner.  The scanner is the state machine of
`encoding/json/scanner.go`: `scanner.step` is the field holding the current
state function, `parseState` the stack of open objects and arrays (its top is
the head of the list).  A Go byte is a `Char` here: every byte of a multi-byte
character is at least `0x80`, and the scanner treats all such bytes alike, as
it treats the character.
-/

/-- An element of `scanner.parseState`. -/
inductive ParseState where
  | parseObjectKey
  | parseObjectValue
  | parseArrayValue
  deriving DecidableEq, Repr

/-- The state functions of the scanner, as values of the field `scanner.step`. -/
inductive StateFn where
  | stateBeginValueOrEmpty | stateBeginValue | stateBeginStringOrEmpty | stateBeginString
  | stateEndValue | stateEndTop
  | stateInString | stateInStringEsc | stateInStringEscU | stateInStringEscU1
  | stateInStringEscU12 | stateInStringEscU123
  | stateNeg | state1 | state0 | stateDot | stateDot0 | stateE | stateESign | stateE0
  | stateT | stateTr | stateTru | stateF | stateFa | stateFal | stateFals
  | stateN | stateNu | stateNul
  | stateError
  deriving DecidableEq, Repr

/-- The struct `scanner`. -/
structure scanner where
  step : StateFn
  endTop : Bool
  parseState : List ParseState
  err : Option String
  deriving DecidableEq, Repr

def scanContinue : Nat := 0
def scanBeginLiteral : Nat := 1
def scanBeginObject : Nat := 2
def scanObjectKey : Nat := 3
def scanObjectValue : Nat := 4
def scanEndObject : Nat := 5
def scanBeginArray : Nat := 6
def scanArrayValue : Nat := 7
def scanEndArray : Nat := 8
def scanSkipSpace : Nat := 9
def scanEnd : Nat := 10
def scanError : Nat := 11

/-- The constant `maxNestingDepth`. -/
def maxNestingDepth : Nat := 10000

/-- The function `isSpace`. -/
def isSpace (c : Char) : Bool :=
  c ≤ ' ' && (c == ' ' || c == Char.ofNat 9 || c == Char.ofNat 13 || c == Char.ofNat 10)

/-- Whether `'0' <= c && c <= '9'`. -/
def isDigit (c : Char) : Bool := '0' ≤ c && c ≤ '9'

/-- The hexadecimal digit test of `stateInStringEscU`. -/
def isHex (c : Char) : Bool :=
  ('0' ≤ c && c ≤ '9') || ('a' ≤ c && c ≤ 'f') || ('A' ≤ c && c ≤ 'F')

/-- The method `scanner.reset` on a fresh scanner (`newScanner`). -/
def newScanner : scanner :=
  { step := .stateBeginValue, endTop := false, parseState := [], err := none }

/-- The method `scanner.error`; the text of the error leaves out the offending
byte. -/
def scanner.error (s : scanner) (context : String) : scanner × Nat :=
  ({ s with step := .stateError, err := some ("invalid character " ++ context) }, scanError)

/-- The method `scanner.pushParseState`. -/
def scanner.pushParseState (s : scanner) (newParseState : ParseState) (successState : Nat) :
    scanner × Nat :=
  let s := { s with parseState := newParseState :: s.parseState }
  if s.parseState.length ≤ maxNestingDepth then (s, successState)
  else s.error "exceeded max depth"

/-- The method `scanner.popParseState`. -/
def scanner.popParseState (s : scanner) : scanner :=
  let n := s.parseState.length - 1
  let s := { s with parseState := s.parseState.tail }
  if n = 0 then { s with step := .stateEndTop, endTop := true }
  else { s with step := .stateEndValue }

/-- The state function `stateEndTop`: the error it records is reported by the
next call, the value returned is `scanEnd` in both cases. -/
def stateEndTop (s : scanner) (c : Char) : scanner × Nat :=
  if !isSpace c then ((s.error "after top-level value").1, scanEnd)
  else (s, scanEnd)

/-- The state function `stateEndValue`. -/
def stateEndValue (s : scanner) (c : Char) : scanner × Nat :=
  match s.parseState with
  | [] => stateEndTop { s with step := .stateEndTop, endTop := true } c
  | ps :: rest =>
    if isSpace c then ({ s with step := .stateEndValue }, scanSkipSpace)
    else
      match ps with
      | .parseObjectKey =>
        if c = ':' then
          ({ s with parseState := .parseObjectValue :: rest, step := .stateBeginValue },
            scanObjectKey)
        else s.error "after object key"
      | .parseObjectValue =>
        if c = ',' then
          ({ s with parseState := .parseObjectKey :: rest, step := .stateBeginString },
            scanObjectValue)
        else if c = '}' then (s.popParseState, scanEndObject)
        else s.error "after object key:value pair"
      | .parseArrayValue =>
        if c = ',' then ({ s with step := .stateBeginValue }, scanArrayValue)
        else if c = ']' then (s.popParseState, scanEndArray)
        else s.error "after array element"

/-- The state function `stateBeginValue`. -/
def stateBeginValue (s : scanner) (c : Char) : scanner × Nat :=
  if isSpace c then (s, scanSkipSpace)
  else if c = '{' then
    { s with step := .stateBeginStringOrEmpty }.pushParseState .parseObjectKey scanBeginObject
  else if c = '[' then
    { s with step := .stateBeginValueOrEmpty }.pushParseState .parseArrayValue scanBeginArray
  else if c = Char.ofNat 34 then ({ s with step := .stateInString }, scanBeginLiteral)
  else if c = '-' then ({ s with step := .stateNeg }, scanBeginLiteral)
  else if c = '0' then ({ s with step := .state0 }, scanBeginLiteral)
  else if c = 't' then ({ s with step := .stateT }, scanBeginLiteral)
  else if c = 'f' then ({ s with step := .stateF }, scanBeginLiteral)
  else if c = 'n' then ({ s with step := .stateN }, scanBeginLiteral)
  else if '1' ≤ c && c ≤ '9' then ({ s with step := .state1 }, scanBeginLiteral)
  else s.error "looking for beginning of value"

/-- The state function `stateBeginValueOrEmpty`. -/
def stateBeginValueOrEmpty (s : scanner) (c : Char) : scanner × Nat :=
  if isSpace c then (s, scanSkipSpace)
  else if c = ']' then stateEndValue s c
  else stateBeginValue s c

/-- The state function `stateBeginString`. -/
def stateBeginString (s : scanner) (c : Char) : scanner × Nat :=
  if isSpace c then (s, scanSkipSpace)
  else if c = Char.ofNat 34 then ({ s with step := .stateInString }, scanBeginLiteral)
  else s.error "looking for beginning of object key string"

/-- The state function `stateBeginStringOrEmpty`. -/
def stateBeginStringOrEmpty (s : scanner) (c : Char) : scanner × Nat :=
  if isSpace c then (s, scanSkipSpace)
  else if c = '}' then
    stateEndValue { s with parseState := .parseObjectValue :: s.parseState.tail } c
  else stateBeginString s c

/-- The state function `stateInString`. -/
def stateInString (s : scanner) (c : Char) : scanner × Nat :=
  if c = Char.ofNat 34 then ({ s with step := .stateEndValue }, scanContinue)
  else if c = Char.ofNat 92 then ({ s with step := .stateInStringEsc }, scanContinue)
  else if c < Char.ofNat 32 then s.error "in string literal"
  else (s, scanContinue)

/-- The state function `stateInStringEsc`. -/
def stateInStringEsc (s : scanner) (c : Char) : scanner × Nat :=
  if c = 'b' || c = 'f' || c = 'n' || c = 'r' || c = 't' || c = Char.ofNat 92 || c = '/'
      || c = Char.ofNat 34 then
    ({ s with step := .stateInString }, scanContinue)
  else if c = 'u' then ({ s with step := .stateInStringEscU }, scanContinue)
  else s.error "in string escape code"

/-- The state functions `stateInStringEscU`, `stateInStringEscU1`,
`stateInStringEscU12` and `stateInStringEscU123`, which differ in the state
they move to. -/
def stateInStringEscHex (next : StateFn) (s : scanner) (c : Char) : scanner × Nat :=
  if isHex c then ({ s with step := next }, scanContinue)
  else s.error "in \\u hexadecimal character escape"

/-- The state function `stateNeg`. -/
def stateNeg (s : scanner) (c : Char) : scanner × Nat :=
  if c = '0' then ({ s with step := .state0 }, scanContinue)
  else if '1' ≤ c && c ≤ '9' then ({ s with step := .state1 }, scanContinue)
  else s.error "in numeric literal"

/-- The state function `state0`. -/
def state0 (s : scanner) (c : Char) : scanner × Nat :=
  if c = '.' then ({ s with step := .stateDot }, scanContinue)
  else if c = 'e' || c = 'E' then ({ s with step := .stateE }, scanContinue)
  else stateEndValue s c

/-- The state function `state1`. -/
def state1 (s : scanner) (c : Char) : scanner × Nat :=
  if isDigit c then ({ s with step := .state1 }, scanContinue)
  else state0 s c

/-- The state function `stateDot`. -/
def stateDot (s : scanner) (c : Char) : scanner × Nat :=
  if isDigit c then ({ s with step := .stateDot0 }, scanContinue)
  else s.error "after decimal point in numeric literal"

/-- The state function `stateDot0`. -/
def stateDot0 (s : scanner) (c : Char) : scanner × Nat :=
  if isDigit c then (s, scanContinue)
  else if c = 'e' || c = 'E' then ({ s with step := .stateE }, scanContinue)
  else stateEndValue s c

/-- The state function `stateESign`. -/
def stateESign (s : scanner) (c : Char) : scanner × Nat :=
  if isDigit c then ({ s with step := .stateE0 }, scanContinue)
  else s.error "in exponent of numeric literal"

/-- The state function `stateE`. -/
def stateE (s : scanner) (c : Char) : scanner × Nat :=
  if c = '+' || c = '-' then ({ s with step := .stateESign }, scanContinue)
  else stateESign s c

/-- The state function `stateE0`. -/
def stateE0 (s : scanner) (c : Char) : scanner × Nat :=
  if isDigit c then (s, scanContinue)
  else stateEndValue s c

/-- The state functions inside the literals `true`, `false` and `null`
(`stateT`, `stateTr`, ...): the one letter `want` moves to `next`. -/
def stateLiteral (want : Char) (next : StateFn) (context : String) (s : scanner) (c : Char) :
    scanner × Nat :=
  if c = want then ({ s with step := next }, scanContinue)
  else s.error context

/-- The call `s.step(s, c)`: the state function held by `s.step` applied to `c`. -/
def scanner.stepByte (s : scanner) (c : Char) : scanner × Nat :=
  match s.step with
  | .stateBeginValueOrEmpty => stateBeginValueOrEmpty s c
  | .stateBeginValue => stateBeginValue s c
  | .stateBeginStringOrEmpty => stateBeginStringOrEmpty s c
  | .stateBeginString => stateBeginString s c
  | .stateEndValue => stateEndValue s c
  | .stateEndTop => stateEndTop s c
  | .stateInString => stateInString s c
  | .stateInStringEsc => stateInStringEsc s c
  | .stateInStringEscU => stateInStringEscHex .stateInStringEscU1 s c
  | .stateInStringEscU1 => stateInStringEscHex .stateInStringEscU12 s c
  | .stateInStringEscU12 => stateInStringEscHex .stateInStringEscU123 s c
  | .stateInStringEscU123 => stateInStringEscHex .stateInString s c
  | .stateNeg => stateNeg s c
  | .state1 => state1 s c
  | .state0 => state0 s c
  | .stateDot => stateDot s c
  | .stateDot0 => stateDot0 s c
  | .stateE => stateE s c
  | .stateESign => stateESign s c
  | .stateE0 => stateE0 s c
  | .stateT => stateLiteral 'r' .stateTr "in literal true (expecting r)" s c
  | .stateTr => stateLiteral 'u' .stateTru "in literal true (expecting u)" s c
  | .stateTru => stateLiteral 'e' .stateEndValue "in literal true (expecting e)" s c
  | .stateF => stateLiteral 'a' .stateFa "in literal false (expecting a)" s c
  | .stateFa => stateLiteral 'l' .stateFal "in literal false (expecting l)" s c
  | .stateFal => stateLiteral 's' .stateFals "in literal false (expecting s)" s c
  | .stateFals => stateLiteral 'e' .stateEndValue "in literal false (expecting e)" s c
  | .stateN => stateLiteral 'u' .stateNu "in literal null (expecting u)" s c
  | .stateNu => stateLiteral 'l' .stateNul "in literal null (expecting l)" s c
  | .stateNul => stateLiteral 'l' .stateEndValue "in literal null (expecting l)" s c
  | .stateError => (s, scanError)

/-- The method `scanner.eof`. -/
def scanner.eof (s : scanner) : scanner × Nat :=
  if s.err.isSome then (s, scanError)
  else if s.endTop then (s, scanEnd)
  else
    let s := (s.stepByte ' ').1
    if s.endTop then (s, scanEnd)
    else if s.err.isNone then
      ({ s with err := some "unexpected end of JSON input" }, scanError)
    else (s, scanError)

/-- The loop of `json.Compact` (`escape` false): the bytes for which the scanner
answers `scanSkipSpace` or more are left out, and `scanError` ends the loop.
The result is the scanner after the loop and the bytes written to `dst`. -/
def compactLoop (scan : scanner) : List Char → scanner × List Char
  | [] => (scan, [])
  | c :: rest =>
    let r := scan.stepByte c
    if r.2 ≥ scanSkipSpace then
      if r.2 = scanError then (r.1, [])
      else compactLoop r.1 rest
    else
      let out := compactLoop r.1 rest
      (out.1, c :: out.2)

/-- The function `json.Compact` into an empty buffer: the buffer after the call and
the error. On error the buffer is truncated to its original (zero) length. -/
def Compact (src : List Char) : List Char × Option String :=
  let r := compactLoop newScanner src
  let e := r.1.eof
  if e.2 = scanError then ([], e.1.err) else (r.2, none)

/-- The function `checkValid` of `encoding/json` from a given scanner state: the
error of the first byte the scanner refuses, else the error of `eof`, else nil
(`none`). -/
def checkValidFrom (scan : scanner) : List Char → Option String
  | [] =>
    let e := scan.eof
    if e.2 = scanError then e.1.err else none
  | c :: rest =>
    let r := scan.stepByte c
    if r.2 = scanError then r.1.err else checkValidFrom r.1 rest

/-- The function `checkValid` of `encoding/json`, after `scan.reset()`. -/
def checkValid (data : List Char) : Option String :=
  checkValidFrom newScanner data

/-- The function `json.Unmarshal`: the input is checked by the scanner first and
decoded into the target type only when it is valid JSON. -/
def jsonUnmarshal {α : Type} (decode : String → Except String α) (data : String) :
    Except String α :=
  match checkValid data.toList with
  | some e => .error e
  | none => decode data

/-! ## path_roles.go -/

/-- The struct `cloudflareRoleEntry`. -/
structure cloudflareRoleEntry where
  PolicyDocument : String
  deriving DecidableEq, Repr

/-- The call `entry.DecodeJSON(&roleEntry)`. -/
def cloudflareRoleEntry.DecodeJSON : StorageValue → Except String cloudflareRoleEntry
  | .malformed => .error "invalid character looking for beginning of value"
  | .object members =>
    match decodeStringField members "policy_document" with
    | .error e => .error e
    | .ok pd => .ok { PolicyDocument := pd }

/-- The map obtained from `json.Marshal(roleEntry)` followed by `json.Unmarshal`
into a `map[string]interface{}`. -/
def cloudflareRoleEntry.toMap (e : cloudflareRoleEntry) : List (String × String) :=
  [("policy_document", e.PolicyDocument)]

/-- The value of `logical.StorageEntryJSON("role/"+roleName, respData)`. -/
def cloudflareRoleEntry.EncodeJSON (e : cloudflareRoleEntry) : StorageValue :=
  .object (e.toMap.map (fun kv => (kv.1, JSONValue.str kv.2)))

/-- The function `compactJSON`: the content of the buffer and the error. -/
def compactJSON (input : String) : String × Option String :=
  let r := Compact input.toList
  (String.mk r.1, r.2)

/-- The method `roleRead`: `none` is the nil entry. -/
def roleRead (s : Storage) (roleName : String) : Except String (Option cloudflareRoleEntry) :=
  if roleName = "" then .error "missing role name"
  else
    match s.Get ("role/" ++ roleName) with
    | .error e => .error e
    | .ok (some entry) =>
      match cloudflareRoleEntry.DecodeJSON entry with
      | .error e => .error e
      | .ok roleEntry => .ok (some roleEntry)
    | .ok none => .ok none

/-- The request fields of `roles/<name>`: `name` as `d.Get` returns it and
`policy_document` as `d.GetOk` sees it. -/
structure RoleData where
  name : String
  policy_document : Option String
  deriving DecidableEq, Repr

/-- The handler `pathRolesRead`. -/
def pathRolesRead (storage : Storage) (d : RoleData) : Run :=
  match roleRead storage d.name with
  | .error e => ⟨.err e, storage, []⟩
  | .ok none => ⟨.ok none, storage, []⟩
  | .ok (some entry) => ⟨.ok (some { Data := entry.toMap, Secret := none }), storage, []⟩

/-- The handler `pathRolesDelete`. -/
def pathRolesDelete (storage : Storage) (d : RoleData) : Run :=
  match storage.Delete ("role/" ++ d.name) with
  | .error e => ⟨.err e, storage, [.StorageDelete ("role/" ++ d.name)]⟩
  | .ok storage' => ⟨.ok none, storage', [.StorageDelete ("role/" ++ d.name)]⟩

/-- The handler `pathRolesWrite`. -/
def pathRolesWrite (env : Env) (storage : Storage) (d : RoleData) : Run :=
  let roleName := d.name
  if roleName = "" then ⟨.ok (some (ErrorResponse "missing role name")), storage, []⟩
  else
    match roleRead storage roleName with
    | .error e => ⟨.err e, storage, []⟩
    | .ok roleEntry? =>
      let roleEntry : cloudflareRoleEntry := roleEntry?.getD { PolicyDocument := "" }
      let updated : Except Response cloudflareRoleEntry :=
        match d.policy_document with
        | none => .ok roleEntry
        | some policyDocumentRaw =>
          if policyDocumentRaw ≠ "" then
            match compactJSON policyDocumentRaw with
            | (_, some _) =>
              .error (ErrorResponse
                ("cannot parse policy document: " ++ env.quote policyDocumentRaw))
            | (policyDocument, none) => .ok { roleEntry with PolicyDocument := policyDocument }
          else .ok { roleEntry with PolicyDocument := policyDocumentRaw }
      match updated with
      | .error resp => ⟨.ok (some resp), storage, []⟩
      | .ok roleEntry =>
        let respData := roleEntry.toMap
        let entry := roleEntry.EncodeJSON
        match storage.Put ("role/" ++ roleName) entry with
        | .error e => ⟨.err e, storage, [.StoragePut ("role/" ++ roleName) entry]⟩
        | .ok storage' =>
          ⟨.ok (some { Data := respData, Secret := none }), storage',
            [.StoragePut ("role/" ++ roleName) entry]⟩

/-! ## Time (`time.Time`, `time.Duration`) -/

/-- The constant `time.Second`, in nanoseconds. -/
def Second : Int := 1000000000

/-- The constant `time.Minute`. -/
def Minute : Int := 60 * Second

/-- The method `t.Truncate(d)`: `t` rounded down to a multiple of `d`.  Go counts
from its zero time, which is a whole number of seconds before the Unix epoch, so
for a `d` that divides one second the multiples are the same. -/
def Truncate (t d : Int) : Int :=
  if d ≤ 0 then t else t - t % d

/-- The zero `time.Time{}` (1 January of year 1, UTC), in nanoseconds since the
Unix epoch. -/
def zeroTime : Int := -62135596800 * Second

/-! ## path_creds_create.go -/

/-- The constant `maxTokenNameLength`. -/
def maxTokenNameLength : Nat := 120

/-- The bytes of a Go string. -/
def bytes (s : String) : List UInt8 := s.toUTF8.data.toList

/-- The function `strings.ToLower`: a string of ASCII bytes is returned as it is
when it has no upper-case letter and is lowered letter by letter otherwise; any
other string goes through the Unicode mapping. -/
def ToLower (env : Env) (s : String) : String :=
  let isASCII := s.toList.all (fun c => c.toNat < 128)
  let hasUpper := s.toList.any (fun c => 'A' ≤ c && c ≤ 'Z')
  if isASCII then
    if !hasUpper then s
    else String.mk (s.toList.map (fun c =>
      if 'A' ≤ c && c ≤ 'Z' then Char.ofNat (c.toNat + ('a'.toNat - 'A'.toNat)) else c))
  else env.unicodeToLower s

/-- The function `createTokenName`; `now` is the reading `time.Now().UnixNano()`. -/
def createTokenName (env : Env) (role : String) (now : Int) : List UInt8 :=
  let lowerRole := ToLower env role
  let tokenName := bytes ("vault-" ++ lowerRole ++ "-" ++ toString now)
  if tokenName.length > maxTokenNameLength then tokenName.take maxTokenNameLength
  else tokenName

/-- The request fields of `creds/<role>`: `role` as `d.Get` returns it and
`condition` as `d.GetOk` sees it. -/
structure CredsData where
  role : String
  condition : Option String
  deriving DecidableEq, Repr

/-- The first step of `pathCredsRead`: the condition of the request, the zero
value when the field is absent or empty. -/
def readCondition (env : Env) (d : CredsData) : Except String APITokenCondition :=
  match d.condition with
  | none => .ok { In := [], NotIn := [] }
  | some conditionRaw =>
    if conditionRaw ≠ "" then jsonUnmarshal env.decodeCondition conditionRaw
    else .ok { In := [], NotIn := [] }

/-- The third step of `pathCredsRead`: the policies of the role, none when the
stored policy document is empty. -/
def readPolicies (env : Env) (roleEntry : cloudflareRoleEntry) :
    Except String (List APITokenPolicies) :=
  if roleEntry.PolicyDocument ≠ "" then
    jsonUnmarshal env.decodePolicies roleEntry.PolicyDocument
  else .ok []

/-- The constant `SecretTokenType` of secret_token.go. -/
def SecretTokenType : String := "token"

/-- The fields of a `framework.Secret` that shape the response it builds: its
`Type` and its `DefaultDuration`. -/
structure FrameworkSecret where
  Type_ : String
  DefaultDuration : Int
  deriving DecidableEq, Repr

/-- The secret `secretToken(b)` of secret_token.go, the one `b.Secret(SecretTokenType)`
finds; it sets no default duration. -/
def secretToken : FrameworkSecret := { Type_ := SecretTokenType, DefaultDuration := 0 }

/-- The method `(*framework.Secret).Response(data, internal)`: the internal map is
copied and the type of the secret is put in it under `secret_type`; the lease
starts with the default duration and every other field at its zero value. -/
def FrameworkSecret.Response (s : FrameworkSecret) (data internal : List (String × String)) :
    Response :=
  { Data := data,
    Secret := some
      { InternalData :=
          internal.filter (fun kv => kv.1 != "secret_type") ++ [("secret_type", s.Type_)],
        TTL := s.DefaultDuration, MaxTTL := 0, Increment := 0, IssueTime := zeroTime } }

/-- The handler `pathCredsRead`; `now` is the reading of the clock for the expiry
and `nameNow` the later reading taken by `createTokenName`. -/
def pathCredsRead (env : Env) (storage : Storage) (d : CredsData) (now nameNow : Int) : Run :=
  let role := d.role
  match readCondition env d with
  | .error e =>
    ⟨.ok (some (ErrorResponse ("err while decoding 'condition'. err: " ++ e))), storage, []⟩
  | .ok condition =>
    match roleRead storage role with
    | .error e =>
      ⟨.ok (some (ErrorResponse
        ("err while getting role configuration for '" ++ role ++ "'. err: " ++ e))), storage, []⟩
    | .ok none =>
      ⟨.ok (some (ErrorResponse
        ("could not find entry for role '" ++ role ++ "', did you configure it?"))), storage, []⟩
    | .ok (some roleEntry) =>
      match readPolicies env roleEntry with
      | .error _ =>
        ⟨.ok (some (ErrorResponse ("failed to marshal '" ++ roleEntry.PolicyDocument ++
          "' into a list of cloudflare policies. ensure your configuration is correct"))),
          storage, []⟩
      | .ok policies =>
        match client storage with
        | .panic msg => ⟨.panic msg, storage, []⟩
        | .err e => ⟨.err e, storage, []⟩
        | .ok c =>
          match env.LeaseConfig storage with
          | .error e => ⟨.err e, storage, []⟩
          | .ok lease? =>
            let lease : configLease := lease?.getD { TTL := 0, MaxTTL := 0 }
            match env.CalculateTTL 0 lease.TTL 0 lease.MaxTTL 0 zeroTime with
            | .error e =>
              ⟨.ok (some (ErrorResponse ("failed to caluclate ttl. err: " ++ e))), storage, []⟩
            | .ok ttl =>
              let expirationDate := Truncate (now + ttl) Second
              let token : APIToken :=
                { ID := "", Name := createTokenName env role nameNow, Value := "",
                  Policies := policies, Condition := some condition,
                  ExpiresOn := some expirationDate }
              match env.CreateAPIToken c token with
              | .error e =>
                ⟨.ok (some (ErrorResponse ("failed to create token. err: " ++ e.Error))),
                  storage, [.CreateAPIToken c token]⟩
              | .ok createdToken =>
                let resp := secretToken.Response
                  [("id", createdToken.ID), ("token", createdToken.Value)]
                  [("id", createdToken.ID), ("token", createdToken.Value)]
                let resp : Response :=
                  { resp with Secret := resp.Secret.map (fun secret =>
                      { secret with TTL := lease.TTL, MaxTTL := lease.MaxTTL }) }
                ⟨.ok (some resp), storage, [.CreateAPIToken c token]⟩

/-! ## secret_token.go -/

/-- The handler `secretTokenRenew`; `secret` is `req.Secret` and `now` the reading
of the clock. -/
def secretTokenRenew (env : Env) (storage : Storage) (secret : Secret) (now : Int) : Run :=
  match client storage with
  | .panic msg => ⟨.panic msg, storage, []⟩
  | .err e => ⟨.err e, storage, []⟩
  | .ok c =>
    match env.LeaseConfig storage with
    | .error e => ⟨.err e, storage, []⟩
    | .ok lease? =>
      let lease : configLease := lease?.getD { TTL := 0, MaxTTL := 0 }
      match secret.InternalData.lookup "id" with
      | none => ⟨.err "id is missing on the lease", storage, []⟩
      | some id =>
        match env.CalculateTTL secret.Increment lease.TTL 0 lease.MaxTTL 0 secret.IssueTime with
        | .error e =>
          ⟨.ok (some (ErrorResponse ("failed to caluclate ttl. err: " ++ e))), storage, []⟩
        | .ok ttl =>
          let expirationDate := Truncate now Second
          let expirationDate := if ttl > 0 then expirationDate + ttl + Minute * 1 else expirationDate
          let updatedAPIToken : APIToken :=
            { ID := "", Name := [], Value := "", Policies := [], Condition := none,
              ExpiresOn := some expirationDate }
          match env.UpdateAPIToken c id updatedAPIToken with
          | .error e =>
            ⟨.ok (some (ErrorResponse
              ("failed to update token with new expiration date. err: " ++ e.Error))),
              storage, [.UpdateAPIToken c id updatedAPIToken]⟩
          | .ok _ =>
            let renewed : Secret := { secret with TTL := lease.TTL, MaxTTL := lease.MaxTTL }
            ⟨.ok (some { Data := [], Secret := some renewed }), storage,
              [.UpdateAPIToken c id updatedAPIToken]⟩

/-- The bytes a decoder driven by the scanner looks at, each with the answer of
the scanner: every byte but those answered by `scanSkipSpace` or `scanEnd`; the
view ends at `scanError`.  `json.Unmarshal` builds its value from these. -/
def decoderView (scan : scanner) : List Char → List (Char × Nat)
  | [] => []
  | c :: rest =>
    let r := scan.stepByte c
    if r.2 ≥ scanSkipSpace then
      if r.2 = scanError then [] else decoderView r.1 rest
    else (c, r.2) :: decoderView r.1 rest

/-- A JSON value as a decoder builds it, with the literals (strings, numbers,
`true`, `false`, `null`) and the member names kept as their text. -/
inductive JValue where
  | literal (text : String)
  | array (items : List JValue)
  | object (members : List (String × JValue))
  deriving Repr

/-- An array or object under construction; an object holds the name of the member
whose value is awaited. -/
inductive Frame where
  | arr (items : List JValue)
  | obj (members : List (String × JValue)) (key : Option String)
  deriving Repr

/-- The state of the value builder: the open arrays and objects, the literal being
read, and the finished top-level value. -/
structure Builder where
  stack : List Frame
  lit : Option (List Char)
  done : Option JValue
  deriving Repr

/-- A finished value goes into the innermost open array or object, or is the
top-level value. -/
def Builder.put (b : Builder) (v : JValue) : Builder :=
  match b.stack with
  | [] => { b with done := some v }
  | .arr items :: rest => { b with stack := .arr (items ++ [v]) :: rest }
  | .obj members none :: rest =>
    match v with
    | .literal text => { b with stack := .obj members (some text) :: rest }
    | _ => b
  | .obj members (some key) :: rest =>
    { b with stack := .obj (members ++ [(key, v)]) none :: rest }

/-- The literal being read, if any, is finished. -/
def Builder.flush (b : Builder) : Builder :=
  match b.lit with
  | some cs => { b with lit := none }.put (.literal (String.mk cs))
  | none => b

/-- The builder takes one byte of the decoder view with the answer of the scanner. -/
def Builder.feed (b : Builder) (ev : Char × Nat) : Builder :=
  if ev.2 = scanContinue then { b with lit := b.lit.map (fun cs => cs ++ [ev.1]) }
  else
    let b := b.flush
    if ev.2 = scanBeginLiteral then { b with lit := some [ev.1] }
    else if ev.2 = scanBeginObject then { b with stack := .obj [] none :: b.stack }
    else if ev.2 = scanBeginArray then { b with stack := .arr [] :: b.stack }
    else if ev.2 = scanEndObject then
      match b.stack with
      | .obj members _ :: rest => { b with stack := rest }.put (.object members)
      | _ => b
    else if ev.2 = scanEndArray then
      match b.stack with
      | .arr items :: rest => { b with stack := rest }.put (.array items)
      | _ => b
    else b

/-- The JSON value of a document: what the builder makes of the decoder view. -/
def jsonValue (p : List Char) : Option JValue :=
  (((decoderView newScanner p).foldl Builder.feed
    { stack := [], lit := none, done := none }).flush).done

/-- Whether `q` is `p` with some white space bytes left out. -/
def spaceErased : List Char → List Char → Bool
  | [], [] => true
  | [], _ :: _ => false
  | c :: p, [] => isSpace c && spaceErased p []
  | c :: p, d :: q => (c == d && spaceErased p q) || (isSpace c && spaceErased p (d :: q))

/-- The states in which the scanner answers a space with `scanSkipSpace` or
`scanEnd`: before and after a value, and inside a number that the space ends. -/
def StateFn.skipsSpace : StateFn → Bool
  | .stateBeginValueOrEmpty | .stateBeginValue | .stateBeginStringOrEmpty | .stateBeginString
  | .stateEndValue | .stateEndTop | .state1 | .state0 | .stateDot0 | .stateE0 => true
  | _ => false

/-- The scanner state is consistent: the error state is entered only with an error
recorded. -/
def scanner.Inv (s : scanner) : Prop := s.step = .stateError → s.err ≠ none

/-- The scanner has met no error. -/
def scanner.Good (s : scanner) : Prop := s.err = none ∧ s.step ≠ .stateError

/-- The answer `r` of a step from `s` keeps the byte: an answer below
`scanSkipSpace` and no error. -/
def Kept (s : scanner) (r : scanner × Nat) : Prop :=
  r.2 < scanSkipSpace ∧ r.1.err = s.err ∧ r.1.step ≠ .stateError

/-- The answer `r` of a step from `s` records an error or keeps the byte. -/
def ErrOrKept (s : scanner) (r : scanner × Nat) : Prop :=
  r.1.err ≠ none ∨ Kept s r

/-- The scanner `s` skips a space: the step on a space answers `scanSkipSpace` or
`scanEnd` without error, a second space changes nothing more, and every byte
kept after the space gets the same answer without the space. -/
def Settled (s : scanner) : Prop :=
  scanSkipSpace ≤ (s.stepByte ' ').2 ∧ (s.stepByte ' ').2 ≠ scanError ∧
  (s.stepByte ' ').1.err = s.err ∧ (s.stepByte ' ').1.step ≠ .stateError ∧
  (s.stepByte ' ').1.stepByte ' ' = s.stepByte ' ' ∧
  ∀ d, ((s.stepByte ' ').1.stepByte d).2 < scanSkipSpace →
    s.stepByte d = (s.stepByte ' ').1.stepByte d

/-- The scanner `a` reading a document and the scanner `b` reading its compacted
form agree, up to a space that `b` has not seen. -/
def Sim (a b : scanner) : Prop :=
  a = b ∨ (a = (b.stepByte ' ').1 ∧ Settled b)


/-! ## Sample collaborators -/

/-- A remote service that reports every token with the given status and id,
fails every regeneration, and accepts every other call. -/
def sampleEnv (status : String) (verifyFails : Bool) : Env where
  VerifyAPIToken := fun _ =>
    if verifyFails then .error (.other "connection refused") else .ok { ID := "id-1", Status := status }
  RollAPIToken := fun _ _ => ("", some (.apiRequest 403 "forbidden"))
  CreateAPIToken := fun _ t => .ok { t with ID := "tok-id-7", Value := "secret-7" }
  UpdateAPIToken := fun _ _ t => .ok t
  DeleteAPIToken := fun _ _ => none
  CalculateTTL := fun _ backendTTL _ _ _ _ => .ok backendTTL
  LeaseConfig := fun _ => .ok none
  decodeCondition := fun _ => .ok { In := [], NotIn := [] }
  decodePolicies := fun _ => .ok []
  goSyntax := fun r => r.Status
  quote := fun s => s
  unicodeToLower := fun s => s

/-- A healthy store with no entry. -/
def emptyStorage : Storage := { entries := [], getFault := none, putFault := none }

/-- A healthy store holding the root credential `tok-A` with id `id-1`. -/
def configuredStorage : Storage :=
  { entries := [(configTokenKey, rootTokenConfig.EncodeJSON { Token := "tok-A", TokenID := "id-1" })],
    getFault := none, putFault := none }

/-- A healthy store whose entry under `config/token` holds bytes that do not
decode. -/
def corruptConfigStorage : Storage :=
  { entries := [(configTokenKey, .malformed)], getFault := none, putFault := none }

/-- The lease secret of the remote token `tok-id-7`. -/
def sampleSecret : Secret :=
  { InternalData := [("id", "tok-id-7"), ("token", "secret-7")], TTL := 0, MaxTTL := 0,
    Increment := 0, IssueTime := 0 }

/-- The remote service of `sampleEnv` under a host whose TTL rule answers `ttl`. -/
def ttlEnv (ttl : Int) : Env :=
  { sampleEnv "active" false with CalculateTTL := fun _ _ _ _ _ _ => .ok ttl }

/-- The remote service of `sampleEnv` under a host that holds a lease policy of
30 minutes, at most 2 hours, and whose TTL rule answers one hour. -/
def leasedEnv : Env :=
  { ttlEnv 3600000000000 with
    LeaseConfig := fun _ => .ok (some { TTL := 1800000000000, MaxTTL := 7200000000000 }) }

/-- The policy document of the role `deploy`. -/
def samplePolicy : String := "[\x7b\"effect\":\"allow\"\x7d]"

/-- The policy document of the role `deploy`, written with white space. -/
def spacedPolicy : String := "[ \x7b\"effect\" : \"allow\"\x7d ]"

/-- A healthy store holding the root credential `tok-A` and the role `deploy`. -/
def issuingStorage : Storage :=
  { entries :=
      [(configTokenKey, rootTokenConfig.EncodeJSON { Token := "tok-A", TokenID := "id-1" }),
       ("role/deploy", cloudflareRoleEntry.EncodeJSON { PolicyDocument := samplePolicy })],
    getFault := none, putFault := none }

/-- A healthy store whose entry for the role `deploy` holds bytes that do not
decode. -/
def corruptRoleStorage : Storage :=
  { entries := [("role/deploy", .malformed)], getFault := none, putFault := none }

/-- The number a list of bytes spells in decimal digits. -/
def decimalValue (bs : List UInt8) : Nat :=
  bs.foldl (fun acc b => acc * 10 + (b.toNat - 48)) 0

/-! # Theorems -/

/-! ## The scanner: one step -/

theorem error_errOrKept (s s' : scanner) (ctx : String) : ErrOrKept s' (s.error ctx) := by
  left; simp [scanner.error]

theorem error_not_kept (s : scanner) (ctx : String) : ¬ (s.error ctx).2 < scanSkipSpace := by
  simp [scanner.error, scanError, scanSkipSpace]

theorem kept_intro (s s' : scanner) (k : Nat) (hk : k < scanSkipSpace) (he : s'.err = s.err)
    (hstep : s'.step ≠ .stateError) : Kept s (s', k) :=
  ⟨hk, he, hstep⟩

theorem kept_mk (s s' : scanner) (k : Nat) (hk : k < scanSkipSpace) (he : s'.err = s.err)
    (hstep : s'.step ≠ .stateError) : ErrOrKept s (s', k) :=
  Or.inr ⟨hk, he, hstep⟩

theorem pushParseState_errOrKept (s s' : scanner) (ps : ParseState) (k : Nat)
    (hk : k < scanSkipSpace) (he : s'.err = s.err) (hs : s'.step ≠ .stateError) :
    ErrOrKept s (s'.pushParseState ps k) := by
  unfold scanner.pushParseState
  dsimp only
  split
  · exact kept_mk _ _ _ hk he hs
  · exact error_errOrKept _ _ _

theorem stateBeginValue_nonspace (s : scanner) (c : Char) (hc : isSpace c = false) :
    ErrOrKept s (stateBeginValue s c) := by
  unfold stateBeginValue
  rw [if_neg (by simp [hc])]
  repeat' split
  all_goals first
    | exact error_errOrKept _ _ _
    | exact pushParseState_errOrKept _ _ _ _ (by decide) rfl (by simp)
    | exact kept_mk _ _ _ (by decide) rfl (by simp)

theorem stateBeginString_nonspace (s : scanner) (c : Char) (hc : isSpace c = false) :
    ErrOrKept s (stateBeginString s c) := by
  unfold stateBeginString
  rw [if_neg (by simp [hc])]
  repeat' split
  all_goals first
    | exact error_errOrKept _ _ _
    | exact kept_mk _ _ _ (by decide) rfl (by simp)

theorem stateEndTop_space (s : scanner) (c : Char) (hc : isSpace c = true) :
    stateEndTop s c = (s, scanEnd) := by
  simp [stateEndTop, hc]

theorem stateEndTop_nonspace (s s' : scanner) (c : Char) (hc : isSpace c = false) :
    ErrOrKept s' (stateEndTop s c) := by
  left
  simp [stateEndTop, hc, scanner.error]

theorem stateEndTop_answer (s : scanner) (c : Char) : (stateEndTop s c).2 = scanEnd := by
  unfold stateEndTop
  split <;> rfl

theorem popParseState_step (s : scanner) : s.popParseState.step ≠ .stateError := by
  unfold scanner.popParseState
  dsimp only
  split <;> simp

theorem popParseState_err (s : scanner) : s.popParseState.err = s.err := by
  unfold scanner.popParseState
  dsimp only
  split <;> rfl

/-- On a byte that is not a space and with an open object or array, `stateEndValue`
records an error or keeps the byte, which then is one of `:`, `,`, `}`, `]`. -/
theorem stateEndValue_nonspace (s : scanner) (c : Char) (ps : ParseState) (rest : List ParseState)
    (hps : s.parseState = ps :: rest) (hc : isSpace c = false) :
    ErrOrKept s (stateEndValue s c) ∧
    ((stateEndValue s c).2 < scanSkipSpace → c = ':' ∨ c = ',' ∨ c = '}' ∨ c = ']') := by
  unfold stateEndValue
  rw [hps]
  dsimp only
  rw [if_neg (by simp [hc])]
  cases ps <;> dsimp only <;> repeat' split
  all_goals first
    | exact ⟨error_errOrKept _ _ _, fun h => absurd h (error_not_kept _ _)⟩
    | (refine ⟨kept_mk _ _ _ (by decide) (popParseState_err _) (popParseState_step _), fun _ => ?_⟩
       simp_all)
    | (refine ⟨kept_mk _ _ _ (by decide) rfl (by simp), fun _ => ?_⟩
       simp_all)

theorem stateEndValue_top (s : scanner) (c : Char) (hps : s.parseState = []) :
    stateEndValue s c = stateEndTop { s with step := .stateEndTop, endTop := true } c := by
  unfold stateEndValue
  rw [hps]

theorem stateEndValue_space (s : scanner) (c : Char) (ps : ParseState) (rest : List ParseState)
    (hps : s.parseState = ps :: rest) (hc : isSpace c = true) :
    stateEndValue s c = ({ s with step := .stateEndValue }, scanSkipSpace) := by
  unfold stateEndValue
  rw [hps]
  dsimp only
  rw [if_pos hc]

/-- With an open object or array and a byte that is not a space, the answer of
`stateEndValue` does not depend on the field `step`. -/
theorem stateEndValue_step (s : scanner) (x : StateFn) (c : Char) (ps : ParseState)
    (rest : List ParseState) (hps : s.parseState = ps :: rest) (hc : isSpace c = false) :
    stateEndValue { s with step := x } c = stateEndValue s c := by
  obtain ⟨step, endTop, stack, err⟩ := s
  simp only at hps
  subst hps
  cases ps <;>
    simp only [stateEndValue, hc, Bool.false_eq_true, if_false, scanner.error,
      scanner.popParseState]

theorem stateBeginValueOrEmpty_nonspace (s : scanner) (c : Char) (hc : isSpace c = false) :
    ErrOrKept s (stateBeginValueOrEmpty s c) := by
  unfold stateBeginValueOrEmpty
  rw [if_neg (by simp [hc])]
  split
  · cases hps : s.parseState with
    | nil =>
      rw [stateEndValue_top s c hps]
      exact stateEndTop_nonspace _ _ _ hc
    | cons ps rest => exact (stateEndValue_nonspace s c ps rest hps hc).1
  · exact stateBeginValue_nonspace s c hc

theorem stateBeginStringOrEmpty_nonspace (s : scanner) (c : Char) (hc : isSpace c = false) :
    ErrOrKept s (stateBeginStringOrEmpty s c) := by
  unfold stateBeginStringOrEmpty
  rw [if_neg (by simp [hc])]
  split
  · exact (stateEndValue_nonspace { s with parseState := .parseObjectValue :: s.parseState.tail }
      c _ _ rfl hc).1
  · exact stateBeginString_nonspace s c hc

theorem stateInString_errOrKept (s : scanner) (c : Char) (hs : s.step ≠ .stateError) :
    ErrOrKept s (stateInString s c) := by
  unfold stateInString
  repeat' split
  all_goals first
    | exact error_errOrKept _ _ _
    | exact kept_mk _ _ _ (by decide) rfl hs
    | exact kept_mk _ _ _ (by decide) rfl (by simp)

theorem stateInStringEsc_errOrKept (s : scanner) (c : Char) :
    ErrOrKept s (stateInStringEsc s c) := by
  unfold stateInStringEsc
  repeat' split
  all_goals first
    | exact error_errOrKept _ _ _
    | exact kept_mk _ _ _ (by decide) rfl (by simp)

theorem stateInStringEscHex_errOrKept (next : StateFn) (hn : next ≠ .stateError) (s : scanner)
    (c : Char) : ErrOrKept s (stateInStringEscHex next s c) := by
  unfold stateInStringEscHex
  split
  · exact kept_mk _ _ _ (by decide) rfl hn
  · exact error_errOrKept _ _ _

theorem stateLiteral_errOrKept (want : Char) (next : StateFn) (ctx : String)
    (hn : next ≠ .stateError) (s : scanner) (c : Char) :
    ErrOrKept s (stateLiteral want next ctx s c) := by
  unfold stateLiteral
  split
  · exact kept_mk _ _ _ (by decide) rfl hn
  · exact error_errOrKept _ _ _

theorem stateNeg_errOrKept (s : scanner) (c : Char) : ErrOrKept s (stateNeg s c) := by
  unfold stateNeg
  repeat' split
  all_goals first
    | exact error_errOrKept _ _ _
    | exact kept_mk _ _ _ (by decide) rfl (by simp)

theorem stateDot_errOrKept (s : scanner) (c : Char) : ErrOrKept s (stateDot s c) := by
  unfold stateDot
  split
  · exact kept_mk _ _ _ (by decide) rfl (by simp)
  · exact error_errOrKept _ _ _

theorem stateESign_errOrKept (s : scanner) (c : Char) : ErrOrKept s (stateESign s c) := by
  unfold stateESign
  split
  · exact kept_mk _ _ _ (by decide) rfl (by simp)
  · exact error_errOrKept _ _ _

theorem stateE_errOrKept (s : scanner) (c : Char) : ErrOrKept s (stateE s c) := by
  unfold stateE
  split
  · exact kept_mk _ _ _ (by decide) rfl (by simp)
  · exact stateESign_errOrKept s c

/-- In a state inside a number, a byte continues the number (and is kept), or ends
it and is handed to `stateEndValue`. -/
theorem number_step (s : scanner) (c : Char)
    (hs : s.step = .state1 ∨ s.step = .state0 ∨ s.step = .stateDot0 ∨ s.step = .stateE0) :
    (Kept s (s.stepByte c) ∧ (isDigit c = true ∨ c = '.' ∨ c = 'e' ∨ c = 'E')) ∨
    s.stepByte c = stateEndValue s c := by
  have hne : s.step ≠ .stateError := by
    rcases hs with h | h | h | h <;> rw [h] <;> simp
  unfold scanner.stepByte
  rcases hs with h | h | h | h <;> rw [h] <;> dsimp only
  · unfold state1 state0
    repeat' split
    all_goals first
      | exact Or.inr rfl
      | (left; refine ⟨kept_intro _ _ _ (by decide) rfl (by first | exact hne | simp), ?_⟩
         simp_all)
  · unfold state0
    repeat' split
    all_goals first
      | exact Or.inr rfl
      | (left; refine ⟨kept_intro _ _ _ (by decide) rfl (by first | exact hne | simp), ?_⟩
         simp_all)
  · unfold stateDot0
    repeat' split
    all_goals first
      | exact Or.inr rfl
      | (left; refine ⟨kept_intro _ _ _ (by decide) rfl (by first | exact hne | simp), ?_⟩
         simp_all)
  · unfold stateE0
    split
    · left
      refine ⟨kept_intro _ _ _ (by decide) rfl hne, ?_⟩
      left; assumption
    · exact Or.inr rfl

theorem isSpace_cases (c : Char) (h : isSpace c = true) :
    c = ' ' ∨ c = Char.ofNat 9 ∨ c = Char.ofNat 13 ∨ c = Char.ofNat 10 := by
  unfold isSpace at h
  simp only [Bool.and_eq_true, Bool.or_eq_true, beq_iff_eq] at h
  tauto

theorem isSpace_not_number (c : Char) (h : isSpace c = true) :
    ¬ (isDigit c = true ∨ c = '.' ∨ c = 'e' ∨ c = 'E') := by
  rcases isSpace_cases c h with h | h | h | h <;> subst h <;> decide

theorem punct_not_number (c : Char) (h : c = ':' ∨ c = ',' ∨ c = '}' ∨ c = ']') :
    ¬ (isDigit c = true ∨ c = '.' ∨ c = 'e' ∨ c = 'E') := by
  rcases h with h | h | h | h <;> subst h <;> decide

/-- A state that answers a space with `scanSkipSpace` or `scanEnd` and stays as it
is skips spaces. -/
theorem settled_of_fix (s : scanner) (k : Nat) (h : s.stepByte ' ' = (s, k))
    (hk : scanSkipSpace ≤ k) (hk' : k ≠ scanError) (hs : s.step ≠ .stateError) : Settled s := by
  unfold Settled
  rw [h]
  exact ⟨hk, hk', rfl, hs, h, fun _ _ => rfl⟩

/-- In `stateEndValue` and in the states inside a number that a space ends, the step
on a space is the one of `stateEndValue`. -/
theorem endValue_like_space (s : scanner) (c : Char) (hc : isSpace c = true)
    (hs : s.step = .stateEndValue ∨ s.step = .state1 ∨ s.step = .state0 ∨
      s.step = .stateDot0 ∨ s.step = .stateE0) :
    s.stepByte c = stateEndValue s c := by
  rcases hs with h | hs
  · unfold scanner.stepByte
    rw [h]
  · rcases number_step s c hs with ⟨-, hd⟩ | h
    · exact absurd hd (isSpace_not_number c hc)
    · exact h

/-- The states of `endValue_like_space` skip spaces. -/
theorem settled_endValue_like (s : scanner)
    (hs : s.step = .stateEndValue ∨ s.step = .state1 ∨ s.step = .state0 ∨
      s.step = .stateDot0 ∨ s.step = .stateE0) : Settled s := by
  have hsp : isSpace ' ' = true := by decide
  have h1 := endValue_like_space s ' ' hsp hs
  unfold Settled
  rw [h1]
  cases hps : s.parseState with
  | nil =>
    rw [stateEndValue_top s ' ' hps, stateEndTop_space _ _ hsp]
    refine ⟨show scanSkipSpace ≤ scanEnd by decide, show scanEnd ≠ scanError by decide, rfl,
      by simp, ?_, ?_⟩
    · show scanner.stepByte { s with step := .stateEndTop, endTop := true } ' ' = _
      unfold scanner.stepByte
      dsimp only
      rw [stateEndTop_space _ _ hsp]
    · intro d hd
      exfalso
      have : (scanner.stepByte { s with step := .stateEndTop, endTop := true } d).2 = scanEnd := by
        unfold scanner.stepByte
        dsimp only
        exact stateEndTop_answer _ _
      rw [show (({ s with step := StateFn.stateEndTop, endTop := true }, scanEnd) :
        scanner × Nat).1 = { s with step := .stateEndTop, endTop := true } from rfl] at hd
      rw [this] at hd
      exact absurd hd (by decide)
  | cons ps rest =>
    rw [stateEndValue_space s ' ' ps rest hps hsp]
    have hps' : ({ s with step := StateFn.stateEndValue } : scanner).parseState = ps :: rest := hps
    have hstep : scanner.stepByte { s with step := .stateEndValue } =
        stateEndValue { s with step := .stateEndValue } := by
      funext d
      unfold scanner.stepByte
      rfl
    refine ⟨show scanSkipSpace ≤ scanSkipSpace by decide,
      show scanSkipSpace ≠ scanError by decide, rfl, by simp, ?_, ?_⟩
    · show scanner.stepByte { s with step := .stateEndValue } ' ' = _
      rw [hstep, stateEndValue_space _ ' ' ps rest hps' hsp]
    · intro d hd
      change ((scanner.stepByte { s with step := .stateEndValue } d).2 < scanSkipSpace) at hd
      show s.stepByte d = scanner.stepByte { s with step := .stateEndValue } d
      rw [hstep] at hd ⊢
      have hd' : isSpace d = false := by
        cases hsd : isSpace d with
        | false => rfl
        | true =>
          rw [stateEndValue_space _ d ps rest hps' hsd] at hd
          exact absurd hd (show ¬ scanSkipSpace < scanSkipSpace by decide)
      rw [stateEndValue_step s _ d ps rest hps hd'] at hd ⊢
      rcases hs with h | hs
      · unfold scanner.stepByte
        rw [h]
      · rcases number_step s d hs with ⟨-, hnum⟩ | h
        · exact absurd hnum
            (punct_not_number d ((stateEndValue_nonspace s d ps rest hps hd').2 hd))
        · exact h

theorem stateEndValue_space_eq (s : scanner) (c : Char) (hc : isSpace c = true) :
    stateEndValue s c = stateEndValue s ' ' := by
  have hsp : isSpace ' ' = true := by decide
  cases hps : s.parseState with
  | nil =>
    rw [stateEndValue_top s c hps, stateEndValue_top s ' ' hps, stateEndTop_space _ _ hc,
      stateEndTop_space _ _ hsp]
  | cons ps rest =>
    rw [stateEndValue_space s c ps rest hps hc, stateEndValue_space s ' ' ps rest hps hsp]

theorem stateEndValue_errOrKept (s : scanner) (c : Char) (hc : isSpace c = false) :
    ErrOrKept s (stateEndValue s c) := by
  cases hps : s.parseState with
  | nil =>
    rw [stateEndValue_top s c hps]
    exact stateEndTop_nonspace _ _ _ hc
  | cons ps rest => exact (stateEndValue_nonspace s c ps rest hps hc).1

/-- In a state that never skips a space, a step yields an error or keeps the byte. -/
theorem stepByte_inner (s : scanner) (c : Char) (hs : s.step ≠ .stateError)
    (hn : s.step.skipsSpace = false) : ErrOrKept s (s.stepByte c) := by
  unfold scanner.stepByte
  cases hstep : s.step <;> rw [hstep] at hn <;> dsimp only
  all_goals first
    | (exfalso; revert hn; decide)
    | exact absurd hstep hs
    | exact stateInString_errOrKept s c hs
    | exact stateInStringEsc_errOrKept s c
    | exact stateInStringEscHex_errOrKept _ (by simp) s c
    | exact stateLiteral_errOrKept _ _ _ (by simp) s c
    | exact stateNeg_errOrKept s c
    | exact stateDot_errOrKept s c
    | exact stateE_errOrKept s c
    | exact stateESign_errOrKept s c

/-- On a byte that is not a space, a step yields an error or keeps the byte. -/
theorem stepByte_nonspace (s : scanner) (c : Char) (hs : s.step ≠ .stateError)
    (hc : isSpace c = false) : ErrOrKept s (s.stepByte c) := by
  cases hsk : s.step.skipsSpace with
  | false => exact stepByte_inner s c hs hsk
  | true =>
    have hnum : ∀ (_ : s.step = .state1 ∨ s.step = .state0 ∨ s.step = .stateDot0 ∨
        s.step = .stateE0), ErrOrKept s (s.stepByte c) := by
      intro h
      rcases number_step s c h with ⟨hk, -⟩ | h'
      · exact Or.inr hk
      · rw [h']
        exact stateEndValue_errOrKept s c hc
    cases hstep : s.step <;> rw [hstep] at hsk
    all_goals first
      | (exfalso; revert hsk; decide)
      | (apply hnum; simp [hstep]; done)
      | (unfold scanner.stepByte
         rw [hstep]
         dsimp only
         first
           | exact stateBeginValueOrEmpty_nonspace s c hc
           | exact stateBeginValue_nonspace s c hc
           | exact stateBeginStringOrEmpty_nonspace s c hc
           | exact stateBeginString_nonspace s c hc
           | exact stateEndValue_errOrKept s c hc
           | exact stateEndTop_nonspace s s c hc)

/-- One step of the scanner, from a state other than the error state: the byte
yields an error, or is kept, or is a space that the state skips. -/
theorem stepByte_class (s : scanner) (c : Char) (hs : s.step ≠ .stateError) :
    ErrOrKept s (s.stepByte c) ∨
    (isSpace c = true ∧ s.stepByte c = s.stepByte ' ' ∧ Settled s) := by
  have hsp : isSpace ' ' = true := by decide
  cases hc : isSpace c with
  | false => exact Or.inl (stepByte_nonspace s c hs hc)
  | true =>
    cases hsk : s.step.skipsSpace with
    | false => exact Or.inl (stepByte_inner s c hs hsk)
    | true =>
      right
      refine ⟨rfl, ?_⟩
      have hfix : ∀ k, scanSkipSpace ≤ k → k ≠ scanError →
          (∀ d, isSpace d = true → s.stepByte d = (s, k)) →
          s.stepByte c = s.stepByte ' ' ∧ Settled s := by
        intro k hk hk' h
        exact ⟨by rw [h c hc, h ' ' hsp], settled_of_fix s k (h ' ' hsp) hk hk' hs⟩
      have hend : ∀ (_ : s.step = .stateEndValue ∨ s.step = .state1 ∨ s.step = .state0 ∨
          s.step = .stateDot0 ∨ s.step = .stateE0),
          s.stepByte c = s.stepByte ' ' ∧ Settled s := by
        intro h
        refine ⟨?_, settled_endValue_like s h⟩
        rw [endValue_like_space s c hc h, endValue_like_space s ' ' hsp h]
        exact stateEndValue_space_eq s c hc
      cases hstep : s.step <;> rw [hstep] at hsk
      all_goals first
        | (exfalso; revert hsk; decide)
        | (apply hend; simp [hstep]; done)
        | (apply hfix scanSkipSpace (by decide) (by decide)
           intro d hd
           simp [scanner.stepByte, hstep, stateBeginValueOrEmpty, stateBeginValue,
             stateBeginStringOrEmpty, stateBeginString, hd]
           done)
        | (apply hfix scanEnd (by decide) (by decide)
           intro d hd
           simp [scanner.stepByte, hstep, stateEndTop, hd])

/-! ## The scanner: a whole document -/

theorem stepByte_stateError (s : scanner) (c : Char) (hs : s.step = .stateError) :
    s.stepByte c = (s, scanError) := by
  unfold scanner.stepByte
  rw [hs]

/-- An error once recorded stays recorded. -/
theorem stepByte_err_mono (s : scanner) (c : Char) (h : s.err ≠ none) :
    (s.stepByte c).1.err ≠ none := by
  by_cases hs : s.step = .stateError
  · rw [stepByte_stateError s c hs]
    exact h
  · rcases stepByte_class s c hs with (he | ⟨-, he, -⟩) | ⟨-, heq, -, -, he, -⟩
    · exact he
    · rw [he]; exact h
    · rw [heq, he]; exact h

/-- A step keeps the scanner consistent, and the answer `scanError` comes with a
recorded error. -/
theorem stepByte_inv (s : scanner) (c : Char) (h : s.Inv) :
    (s.stepByte c).1.Inv ∧ ((s.stepByte c).2 = scanError → (s.stepByte c).1.err ≠ none) := by
  by_cases hs : s.step = .stateError
  · rw [stepByte_stateError s c hs]
    exact ⟨h, fun _ => h hs⟩
  · rcases stepByte_class s c hs with (he | ⟨hk, -, hst⟩) | ⟨-, heq, -, hne, -, hst, -⟩
    · exact ⟨fun _ => he, fun _ => he⟩
    · refine ⟨fun h' => absurd h' hst, fun h' => ?_⟩
      rw [h'] at hk
      exact absurd hk (by decide)
    · rw [heq]
      exact ⟨fun h' => absurd h' hst, fun h' => absurd h' hne⟩

theorem compactLoop_err_mono (p : List Char) :
    ∀ s : scanner, s.err ≠ none → (compactLoop s p).1.err ≠ none := by
  induction p with
  | nil => intro s h; exact h
  | cons c rest ih =>
    intro s h
    have h' := stepByte_err_mono s c h
    unfold compactLoop
    dsimp only
    split
    · split
      · exact h'
      · exact ih _ h'
    · exact ih _ h'

theorem compactLoop_inv (p : List Char) :
    ∀ s : scanner, s.Inv → (compactLoop s p).1.Inv := by
  induction p with
  | nil => intro s h; exact h
  | cons c rest ih =>
    intro s h
    have h' := (stepByte_inv s c h).1
    unfold compactLoop
    dsimp only
    split
    · split
      · exact h'
      · exact ih _ h'
    · exact ih _ h'

/-- The bytes `compactLoop` writes are the bytes of the decoder view. -/
theorem compactLoop_view (p : List Char) :
    ∀ s : scanner, (compactLoop s p).2 = (decoderView s p).map Prod.fst := by
  induction p with
  | nil => intro s; rfl
  | cons c rest ih =>
    intro s
    unfold compactLoop decoderView
    dsimp only
    split
    · split
      · rfl
      · exact ih _
    · simp only [List.map_cons]
      rw [ih]

theorem spaceErased_drop (c : Char) (p q : List Char) (hc : isSpace c = true)
    (h : spaceErased p q = true) : spaceErased (c :: p) q = true := by
  cases q with
  | nil => simp [spaceErased, hc, h]
  | cons d q => simp [spaceErased, hc, h]

theorem spaceErased_keep (c : Char) (p q : List Char) (h : spaceErased p q = true) :
    spaceErased (c :: p) (c :: q) = true := by
  simp [spaceErased, h]

/-- The core of the compaction proof.  When the loop of `json.Compact` runs over `p`
from a state `a` without error, then the loop run over its own output from a
state `b` that agrees with `a` writes that output again, ends in a state that
agrees with the final state of the first run, and the decoder view of the
output is the decoder view of `p`; the output is `p` without some spaces. -/
theorem compactLoop_sim (p : List Char) :
    ∀ a b : scanner, a.Good → b.Good → Sim a b → (compactLoop a p).1.err = none →
      (compactLoop b (compactLoop a p).2).2 = (compactLoop a p).2 ∧
      Sim (compactLoop a p).1 (compactLoop b (compactLoop a p).2).1 ∧
      (compactLoop a p).1.Good ∧ (compactLoop b (compactLoop a p).2).1.Good ∧
      decoderView b (compactLoop a p).2 = decoderView a p ∧
      spaceErased p (compactLoop a p).2 = true := by
  induction p with
  | nil =>
    intro a b ha hb hsim _
    exact ⟨rfl, hsim, ha, hb, rfl, rfl⟩
  | cons c rest ih =>
    intro a b ha hb hsim hfin
    rcases stepByte_class a c ha.2 with (he | ⟨hk, herr, hst⟩) | ⟨hc, heq, hset⟩
    · -- an error: the run cannot end without error
      exfalso
      revert hfin
      show (compactLoop a (c :: rest)).1.err ≠ none
      unfold compactLoop
      dsimp only
      split
      · split
        · exact he
        · exact compactLoop_err_mono _ _ he
      · exact compactLoop_err_mono _ _ he
    · -- a kept byte
      have hlt : ¬ (a.stepByte c).2 ≥ scanSkipSpace := by
        have := hk
        omega
      have hbstep : b.stepByte c = a.stepByte c := by
        rcases hsim with h | ⟨h, hsb⟩
        · rw [h]
        · rw [h]
          apply hsb.2.2.2.2.2
          rw [← h]
          exact hk
      have hgood : (a.stepByte c).1.Good := ⟨herr.trans ha.1, hst⟩
      have hrun : compactLoop a (c :: rest) =
          ((compactLoop (a.stepByte c).1 rest).1, c :: (compactLoop (a.stepByte c).1 rest).2) := by
        rw [compactLoop]
        dsimp only
        rw [if_neg hlt]
      rw [hrun] at hfin ⊢
      dsimp only at hfin ⊢
      obtain ⟨h1, h2, h3, h4, h5, h6⟩ := ih _ _ hgood hgood (Or.inl rfl) hfin
      have hrunb : compactLoop b (c :: (compactLoop (a.stepByte c).1 rest).2) =
          ((compactLoop (a.stepByte c).1 (compactLoop (a.stepByte c).1 rest).2).1,
            c :: (compactLoop (a.stepByte c).1 (compactLoop (a.stepByte c).1 rest).2).2) := by
        rw [compactLoop]
        dsimp only
        rw [hbstep, if_neg hlt]
      rw [hrunb]
      refine ⟨by rw [h1], h2, h3, h4, ?_, spaceErased_keep _ _ _ h6⟩
      rw [decoderView, decoderView]
      rw [hbstep, if_neg hlt, if_neg hlt, h5]
    · -- a skipped space
      obtain ⟨hge, hne, herr, hst, hidem, hkeep⟩ := hset
      have hgood : (a.stepByte c).1.Good := by
        rw [heq]
        exact ⟨herr.trans ha.1, hst⟩
      have hrun : compactLoop a (c :: rest) = compactLoop (a.stepByte c).1 rest := by
        rw [compactLoop]
        dsimp only
        rw [heq, if_pos hge, if_neg hne]
      have hview : decoderView a (c :: rest) = decoderView (a.stepByte c).1 rest := by
        rw [decoderView]
        rw [heq, if_pos hge, if_neg hne]
      have hsim' : Sim (a.stepByte c).1 b := by
        rcases hsim with h | ⟨h, hsb⟩
        · right
          rw [heq, ← h]
          exact ⟨rfl, hge, hne, herr, hst, hidem, hkeep⟩
        · right
          refine ⟨?_, hsb⟩
          rw [heq, h, hsb.2.2.2.2.1]
      rw [hrun] at hfin ⊢
      rw [hview]
      obtain ⟨h1, h2, h3, h4, h5, h6⟩ := ih _ _ hgood hb hsim' hfin
      exact ⟨h1, h2, h3, h4, h5, spaceErased_drop _ _ _ hc h6⟩

theorem eof_error_err (s : scanner) (h : s.eof.2 = scanError) : s.eof.1.err ≠ none := by
  unfold scanner.eof at h ⊢
  dsimp only at h ⊢
  split
  · rename_i h1
    intro h2
    rw [h2] at h1
    cases h1
  · split
    · rename_i h2
      rw [if_neg (by assumption), if_pos h2] at h
      exact absurd h (show scanEnd ≠ scanError by decide)
    · split
      · rename_i h3
        rw [if_neg (by assumption), if_neg (by assumption), if_pos h3] at h
        exact absurd h (show scanEnd ≠ scanError by decide)
      · split
        · simp
        · rename_i h4
          intro h5
          rw [h5] at h4
          exact h4 rfl

/-- The method `eof` accepts exactly a scanner without error that has completed a
top-level value, now or after one more space. -/
theorem eof_ok_iff (s : scanner) :
    s.eof.2 ≠ scanError ↔
      s.err = none ∧ (s.endTop = true ∨ (s.stepByte ' ').1.endTop = true) := by
  unfold scanner.eof
  dsimp only
  cases herr : s.err with
  | some e => simp
  | none =>
    cases hend : s.endTop with
    | true => simp [scanEnd, scanError]
    | false =>
      cases hend' : (s.stepByte ' ').1.endTop with
      | true => simp [scanEnd, scanError]
      | false =>
        simp only [Option.isSome_none, Bool.false_eq_true, if_false, ne_eq, true_and, or_self,
          iff_false, not_not]
        split <;> rfl

/-- If the scanner of the document is accepted by `eof`, so is the scanner of the
compacted document. -/
theorem eof_sim (a b : scanner) (hb : b.Good) (hsim : Sim a b) (h : a.eof.2 ≠ scanError) :
    b.eof.2 ≠ scanError := by
  rcases hsim with h' | ⟨h', hset⟩
  · rw [← h']; exact h
  · rw [eof_ok_iff] at h ⊢
    refine ⟨hb.1, ?_⟩
    rcases h.2 with h2 | h2
    · right; rw [← h']; exact h2
    · right
      rw [h', hset.2.2.2.2.1] at h2
      exact h2

theorem newScanner_good : newScanner.Good := ⟨rfl, by simp [newScanner]⟩

theorem newScanner_inv : newScanner.Inv := fun h => by simp [newScanner] at h

/-- When `json.Compact` succeeds, the scanner has accepted the whole input. -/
theorem Compact_ok (p : List Char) (h : (Compact p).2 = none) :
    (compactLoop newScanner p).1.eof.2 ≠ scanError ∧
    (Compact p).1 = (compactLoop newScanner p).2 := by
  unfold Compact at h ⊢
  dsimp only at h ⊢
  split
  · rename_i he
    rw [if_pos he] at h
    exact absurd h (eof_error_err _ he)
  · rename_i he
    exact ⟨he, rfl⟩

theorem Compact_of_ok (p : List Char) (h : (compactLoop newScanner p).1.eof.2 ≠ scanError) :
    Compact p = ((compactLoop newScanner p).2, none) := by
  unfold Compact
  dsimp only
  rw [if_neg h]

/-- The compaction `json.Compact` of a document it accepts: compacting the output
again returns it unchanged, the decoder sees in the output exactly what it sees
in the document, the output consists of the bytes the decoder looks at, and it
is the document without some of its spaces. -/
theorem Compact_spec (p : List Char) (h : (Compact p).2 = none) :
    Compact (Compact p).1 = ((Compact p).1, none) ∧
    decoderView newScanner (Compact p).1 = decoderView newScanner p ∧
    (Compact p).1 = (decoderView newScanner p).map Prod.fst ∧
    spaceErased p (Compact p).1 = true := by
  obtain ⟨hok, hout⟩ := Compact_ok p h
  have hfin : (compactLoop newScanner p).1.err = none := ((eof_ok_iff _).1 hok).1
  obtain ⟨h1, h2, -, h4, h5, h6⟩ :=
    compactLoop_sim p newScanner newScanner newScanner_good newScanner_good (Or.inl rfl) hfin
  rw [hout]
  refine ⟨?_, h5, compactLoop_view p newScanner, h6⟩
  have hok' := eof_sim _ _ h4 h2 hok
  rw [Compact_of_ok _ hok', h1]

/-- The function `checkValid` accepts what the loop of `json.Compact` followed by
`eof` accepts. -/
theorem checkValidFrom_iff (p : List Char) :
    ∀ s : scanner, s.Inv →
      (checkValidFrom s p = none ↔ (compactLoop s p).1.eof.2 ≠ scanError) := by
  induction p with
  | nil =>
    intro s _
    unfold checkValidFrom compactLoop
    dsimp only
    constructor
    · intro h he
      rw [if_pos he] at h
      exact eof_error_err s he h
    · intro h
      rw [if_neg h]
  | cons c rest ih =>
    intro s hs
    obtain ⟨hinv, herr⟩ := stepByte_inv s c hs
    unfold checkValidFrom compactLoop
    dsimp only
    by_cases he : (s.stepByte c).2 = scanError
    · rw [if_pos he, if_pos (by rw [he]; decide), if_pos he]
      constructor
      · intro h
        exact absurd h (herr he)
      · intro h
        exfalso
        apply h
        unfold scanner.eof
        dsimp only
        rw [if_pos]
        exact Option.isSome_iff_ne_none.2 (herr he)
    · rw [if_neg he]
      rw [ih _ hinv]
      split
      · rfl
      · rfl

/-- The document `json.Valid` (the check `json.Unmarshal` starts with) accepts are
the documents `json.Compact` accepts. -/
theorem checkValid_iff_Compact (p : List Char) : checkValid p = none ↔ (Compact p).2 = none := by
  unfold checkValid
  rw [checkValidFrom_iff p newScanner newScanner_inv]
  constructor
  · intro h
    rw [Compact_of_ok p h]
  · intro h
    exact (Compact_ok p h).1

/-! ## The root credential (C1, C2, C3) and the lease handlers (C4, C5) -/

/-- The root configuration can be read exactly from a store that serves the read
and whose entry under `config/token` is absent or decodes. -/
theorem readConfigToken_ok_iff (storage : Storage) :
    (∃ conf?, readConfigToken storage = .ok conf?) ↔
      (storage.getFault = none ∧
        ∀ v, storage.stored configTokenKey = some v →
          ∃ conf, rootTokenConfig.DecodeJSON v = .ok conf) := by
  unfold readConfigToken Storage.Get
  cases hg : storage.getFault with
  | some e => simp
  | none =>
    cases hs : storage.stored configTokenKey with
    | none => simp
    | some v =>
      cases hd : rootTokenConfig.DecodeJSON v with
      | error e => simp [hd]
      | ok conf => simp [hd]

/-- When the root configuration cannot be read, `pathConfigTokenWrite` returns the
read error and does nothing else. -/
theorem pathConfigTokenWrite_unreadable (env : Env) (storage : Storage)
    (data : ConfigTokenData) (e : String) (h : readConfigToken storage = .error e) :
    pathConfigTokenWrite env storage data = ⟨.err e, storage, []⟩ := by
  simp [pathConfigTokenWrite, h]

/-- With an empty token and a readable root configuration, `pathConfigTokenWrite`
returns the error of `createClient` and does nothing else. -/
theorem pathConfigTokenWrite_empty_token (env : Env) (storage : Storage)
    (conf? : Option rootTokenConfig) (h : readConfigToken storage = .ok conf?) :
    pathConfigTokenWrite env storage { token := some "" } =
      ⟨.err "invalid credentials: API Token must not be empty", storage, []⟩ := by
  simp [pathConfigTokenWrite, h, createClient]

/-- With a non-empty token and a readable root configuration, `pathConfigTokenWrite`
makes the verify call with a client built from the token and goes by its answer. -/
theorem pathConfigTokenWrite_run (env : Env) (storage : Storage) (token : String)
    (conf? : Option rootTokenConfig) (h : readConfigToken storage = .ok conf?)
    (ht : token ≠ "") :
    pathConfigTokenWrite env storage { token := some token } =
      match env.VerifyAPIToken { APIToken := token } with
      | .error e =>
        ⟨.ok (some (ErrorResponse ("encountered error when verifying token: " ++ e.Error))),
          storage, [.VerifyAPIToken { APIToken := token }]⟩
      | .ok resp =>
        if resp.Status ≠ "active" then
          ⟨.ok (some (ErrorResponse
            ("provided token is not currently active. resp:" ++ env.goSyntax resp))),
            storage, [.VerifyAPIToken { APIToken := token }]⟩
        else
          match storage.Put configTokenKey
              (rootTokenConfig.EncodeJSON { Token := token, TokenID := resp.ID }) with
          | .error e =>
            ⟨.err e, storage, [.VerifyAPIToken { APIToken := token },
              .StoragePut configTokenKey
                (rootTokenConfig.EncodeJSON { Token := token, TokenID := resp.ID })]⟩
          | .ok storage' =>
            ⟨.ok none, storage', [.VerifyAPIToken { APIToken := token },
              .StoragePut configTokenKey
                (rootTokenConfig.EncodeJSON { Token := token, TokenID := resp.ID })]⟩ := by
  simp only [pathConfigTokenWrite, h, createClient, if_neg ht]

/-- C1 as stated fails at the empty token, also on a healthy store with no entry:
no client can be built from it, so the handler returns the error of
`createClient` (not an error response) when the remote would report the token
`disabled`, and stores nothing when the remote would report it `active`.  It
fails as well, for a token that is not empty, on a store whose entry under
`config/token` does not decode: the handler returns the read error, not an
error response. -/
theorem pathConfigTokenWrite_sound_counterexample :
    (¬ ∀ (env : Env) (storage : Storage) (token : String),
        storage.getFault = none → storage.putFault = none →
        (∀ v, storage.stored configTokenKey = some v →
          ∃ conf, rootTokenConfig.DecodeJSON v = .ok conf) →
        (∀ resp, env.VerifyAPIToken { APIToken := token } = .ok resp →
          resp.Status ≠ "active") →
        ∃ msg, (pathConfigTokenWrite env storage { token := some token }).result =
          .ok (some (ErrorResponse msg))) ∧
    (¬ ∀ (env : Env) (storage : Storage) (token : String) (resp : APITokenVerifyBody),
        storage.getFault = none → storage.putFault = none →
        (∀ v, storage.stored configTokenKey = some v →
          ∃ conf, rootTokenConfig.DecodeJSON v = .ok conf) →
        env.VerifyAPIToken { APIToken := token } = .ok resp → resp.Status = "active" →
        (pathConfigTokenWrite env storage { token := some token }).storage.stored
            configTokenKey =
          some (rootTokenConfig.EncodeJSON { Token := token, TokenID := resp.ID })) ∧
    (¬ ∀ (env : Env) (storage : Storage) (token : String),
        token ≠ "" →
        (∀ resp, env.VerifyAPIToken { APIToken := token } = .ok resp →
          resp.Status ≠ "active") →
        ∃ msg, (pathConfigTokenWrite env storage { token := some token }).result =
          .ok (some (ErrorResponse msg))) := by
  refine ⟨?_, ?_, ?_⟩
  · intro h
    obtain ⟨msg, hmsg⟩ := h (sampleEnv "disabled" false) emptyStorage "" rfl rfl
      (by intro v hv; cases hv) (by intro resp hr; cases hr; decide)
    cases hmsg
  · intro h
    have := h (sampleEnv "active" false) emptyStorage "" { ID := "id-1", Status := "active" }
      rfl rfl (by intro v hv; cases hv) rfl rfl
    revert this
    decide
  · intro h
    obtain ⟨msg, hmsg⟩ := h (sampleEnv "disabled" false) corruptConfigStorage "tok-B"
      (by decide) (by intro resp hr; cases hr; decide)
    cases hmsg

/-- C1, amended.  For every storage and every supplied token: when the remote
verify-token call for the token fails or reports a status other than `active`,
the handler fails, makes no storage write and leaves the storage (so the entry
under `config/token`) as it was.  The verify call is made exactly when the root
configuration can be read (the store serves the read and the entry under
`config/token` is absent or decodes) and the token is not empty.  In that case
the call is made with a client built from the supplied token; if it fails or
reports a status other than `active` the answer is an error response, the call
is the only effect and the storage is as it was; if it reports `active` the
handler makes one `Put` of the supplied token with the id of the verify
response, and that is the entry under `config/token` when the store accepts the
write, while the storage is as it was when the store refuses it.  Otherwise the
handler returns an error (not an error response) with no effect at all. -/
theorem pathConfigTokenWrite_sound (env : Env) (storage : Storage) (token : String) :
    ((∀ resp, env.VerifyAPIToken { APIToken := token } = .ok resp → resp.Status ≠ "active") →
      (pathConfigTokenWrite env storage { token := some token }).storage = storage ∧
      (∀ ev ∈ (pathConfigTokenWrite env storage { token := some token }).events,
        ev.isWrite = false) ∧
      (pathConfigTokenWrite env storage { token := some token }).result ≠ .ok none) ∧
    ((∃ c, Event.VerifyAPIToken c ∈
        (pathConfigTokenWrite env storage { token := some token }).events) ↔
      (storage.getFault = none ∧
        (∀ v, storage.stored configTokenKey = some v →
          ∃ conf, rootTokenConfig.DecodeJSON v = .ok conf) ∧
        token ≠ "")) ∧
    (storage.getFault = none →
      (∀ v, storage.stored configTokenKey = some v →
        ∃ conf, rootTokenConfig.DecodeJSON v = .ok conf) →
      token ≠ "" →
      (∃ rest, (pathConfigTokenWrite env storage { token := some token }).events =
        .VerifyAPIToken { APIToken := token } :: rest) ∧
      ((∀ resp, env.VerifyAPIToken { APIToken := token } = .ok resp →
          resp.Status ≠ "active") →
        (∃ msg, (pathConfigTokenWrite env storage { token := some token }).result =
          .ok (some (ErrorResponse msg))) ∧
        (pathConfigTokenWrite env storage { token := some token }).events =
          [.VerifyAPIToken { APIToken := token }] ∧
        (pathConfigTokenWrite env storage { token := some token }).storage = storage) ∧
      (∀ resp, env.VerifyAPIToken { APIToken := token } = .ok resp →
        resp.Status = "active" →
        (pathConfigTokenWrite env storage { token := some token }).events =
          [.VerifyAPIToken { APIToken := token }, .StoragePut configTokenKey
            (rootTokenConfig.EncodeJSON { Token := token, TokenID := resp.ID })] ∧
        (storage.putFault = none →
          (pathConfigTokenWrite env storage { token := some token }).result = .ok none ∧
          (pathConfigTokenWrite env storage { token := some token }).storage.stored
              configTokenKey =
            some (rootTokenConfig.EncodeJSON { Token := token, TokenID := resp.ID })) ∧
        (∀ e, storage.putFault = some e →
          (pathConfigTokenWrite env storage { token := some token }).result = .err e ∧
          (pathConfigTokenWrite env storage { token := some token }).storage = storage))) ∧
    (¬ (storage.getFault = none ∧
        (∀ v, storage.stored configTokenKey = some v →
          ∃ conf, rootTokenConfig.DecodeJSON v = .ok conf) ∧
        token ≠ "") →
      (∃ e, (pathConfigTokenWrite env storage { token := some token }).result = .err e) ∧
      (pathConfigTokenWrite env storage { token := some token }).events = [] ∧
      (pathConfigTokenWrite env storage { token := some token }).storage = storage) := by
  have hiff := readConfigToken_ok_iff storage
  cases hr : readConfigToken storage with
  | error e =>
    have hno : ¬ (storage.getFault = none ∧
        ∀ v, storage.stored configTokenKey = some v →
          ∃ conf, rootTokenConfig.DecodeJSON v = .ok conf) := by
      intro hh
      obtain ⟨c, hc⟩ := hiff.2 hh
      rw [hr] at hc
      cases hc
    rw [pathConfigTokenWrite_unreadable env storage _ e hr]
    refine ⟨fun _ => ⟨rfl, by simp, by simp⟩, ⟨?_, ?_⟩, ?_, ?_⟩
    · rintro ⟨c, hc⟩
      simp at hc
    · rintro ⟨hg, hd, _⟩
      exact absurd ⟨hg, hd⟩ hno
    · intro hg hd _
      exact absurd ⟨hg, hd⟩ hno
    · intro _
      exact ⟨⟨e, rfl⟩, rfl, rfl⟩
  | ok conf? =>
    obtain ⟨hg, hd⟩ := hiff.1 ⟨conf?, hr⟩
    by_cases ht : token = ""
    · subst ht
      rw [pathConfigTokenWrite_empty_token env storage conf? hr]
      refine ⟨fun _ => ⟨rfl, by simp, by simp⟩, ⟨?_, ?_⟩, ?_, ?_⟩
      · rintro ⟨c, hc⟩
        simp at hc
      · rintro ⟨_, _, h⟩
        exact absurd rfl h
      · intro _ _ h
        exact absurd rfl h
      · intro _
        exact ⟨⟨_, rfl⟩, rfl, rfl⟩
    · have hrun := pathConfigTokenWrite_run env storage token conf? hr ht
      have hcases : (∃ e, env.VerifyAPIToken { APIToken := token } = .error e) ∨
          (∃ resp, env.VerifyAPIToken { APIToken := token } = .ok resp) := by
        cases env.VerifyAPIToken { APIToken := token } with
        | error e => exact Or.inl ⟨e, rfl⟩
        | ok resp => exact Or.inr ⟨resp, rfl⟩
      rcases hcases with ⟨e, hv⟩ | ⟨resp, hv⟩
      · rw [hv] at hrun
        dsimp only at hrun
        rw [hrun]
        refine ⟨fun _ => ⟨rfl, by simp [Event.isWrite], by simp⟩, ⟨fun _ => ⟨hg, hd, ht⟩,
          fun _ => ⟨{ APIToken := token }, by simp⟩⟩, ?_, ?_⟩
        · intro _ _ _
          refine ⟨⟨_, rfl⟩, fun _ => ⟨⟨_, rfl⟩, rfl, rfl⟩, ?_⟩
          intro resp hresp
          rw [hv] at hresp
          cases hresp
        · intro hn
          exact absurd ⟨hg, hd, ht⟩ hn
      · rw [hv] at hrun
        dsimp only at hrun
        by_cases hs : resp.Status = "active"
        · have hact : ¬ resp.Status ≠ "active" := fun h => h hs
          rw [if_neg hact] at hrun
          have hput : (∃ e, storage.putFault = some e) ∨ storage.putFault = none := by
            cases storage.putFault with
            | none => exact Or.inr rfl
            | some e => exact Or.inl ⟨e, rfl⟩
          rcases hput with ⟨e, hf⟩ | hf
          · simp only [Storage.Put, hf] at hrun
            rw [hrun]
            refine ⟨fun hall => absurd hs (hall resp hv), ⟨fun _ => ⟨hg, hd, ht⟩,
              fun _ => ⟨{ APIToken := token }, by simp⟩⟩, ?_, ?_⟩
            · intro _ _ _
              refine ⟨⟨_, rfl⟩, fun hall => absurd hs (hall resp hv), ?_⟩
              intro resp2 hresp2 _
              rw [hv] at hresp2
              cases hresp2
              refine ⟨rfl, ?_, ?_⟩
              · intro hf2
                rw [hf] at hf2
                cases hf2
              · intro e2 hf2
                rw [hf] at hf2
                cases hf2
                exact ⟨rfl, rfl⟩
            · intro hn
              exact absurd ⟨hg, hd, ht⟩ hn
          · simp only [Storage.Put, hf] at hrun
            rw [hrun]
            refine ⟨fun hall => absurd hs (hall resp hv), ⟨fun _ => ⟨hg, hd, ht⟩,
              fun _ => ⟨{ APIToken := token }, by simp⟩⟩, ?_, ?_⟩
            · intro _ _ _
              refine ⟨⟨_, rfl⟩, fun hall => absurd hs (hall resp hv), ?_⟩
              intro resp2 hresp2 _
              rw [hv] at hresp2
              cases hresp2
              refine ⟨rfl, ?_, ?_⟩
              · intro _
                refine ⟨rfl, ?_⟩
                simp [Storage.stored]
              · intro e2 hf2
                rw [hf] at hf2
                cases hf2
            · intro hn
              exact absurd ⟨hg, hd, ht⟩ hn
        · have hna : resp.Status ≠ "active" := hs
          rw [if_pos hna] at hrun
          rw [hrun]
          refine ⟨fun _ => ⟨rfl, by simp [Event.isWrite], by simp⟩, ⟨fun _ => ⟨hg, hd, ht⟩,
            fun _ => ⟨{ APIToken := token }, by simp⟩⟩, ?_, ?_⟩
          · intro _ _ _
            refine ⟨⟨_, rfl⟩, fun _ => ⟨⟨_, rfl⟩, rfl, rfl⟩, ?_⟩
            intro resp2 hresp2 hact
            rw [hv] at hresp2
            cases hresp2
            exact absurd hact hs
          · intro hn
            exact absurd ⟨hg, hd, ht⟩ hn

/-- C1, at concrete inputs.  On an empty store (the first configuration), writing
`tok-B` stores `tok-B` with the id `id-1` of the verify response when the remote
reports `active`, and returns an error response with the store still empty when
the remote reports `disabled`.  Over a stored credential `tok-A`, writing `tok-B`
when the remote reports `disabled`, or fails, returns an error response and
leaves the store as it was; when the remote reports `active` the entry becomes
`tok-B` with `id-1`. -/
theorem pathConfigTokenWrite_sound_witness :
    ((pathConfigTokenWrite (sampleEnv "active" false) emptyStorage
        { token := some "tok-B" }).result = .ok none ∧
      (pathConfigTokenWrite (sampleEnv "active" false) emptyStorage
        { token := some "tok-B" }).storage.stored configTokenKey =
        some (rootTokenConfig.EncodeJSON { Token := "tok-B", TokenID := "id-1" })) ∧
    ((∃ msg, (pathConfigTokenWrite (sampleEnv "disabled" false) emptyStorage
        { token := some "tok-B" }).result = .ok (some (ErrorResponse msg))) ∧
      (pathConfigTokenWrite (sampleEnv "disabled" false) emptyStorage
        { token := some "tok-B" }).events = [.VerifyAPIToken { APIToken := "tok-B" }] ∧
      (pathConfigTokenWrite (sampleEnv "disabled" false) emptyStorage
        { token := some "tok-B" }).storage = emptyStorage) ∧
    ((∃ msg, (pathConfigTokenWrite (sampleEnv "disabled" false) configuredStorage
        { token := some "tok-B" }).result = .ok (some (ErrorResponse msg))) ∧
      (pathConfigTokenWrite (sampleEnv "disabled" false) configuredStorage
        { token := some "tok-B" }).events = [.VerifyAPIToken { APIToken := "tok-B" }] ∧
      (pathConfigTokenWrite (sampleEnv "disabled" false) configuredStorage
        { token := some "tok-B" }).storage = configuredStorage) ∧
    ((∃ msg, (pathConfigTokenWrite (sampleEnv "active" true) configuredStorage
        { token := some "tok-B" }).result = .ok (some (ErrorResponse msg))) ∧
      (pathConfigTokenWrite (sampleEnv "active" true) configuredStorage
        { token := some "tok-B" }).events = [.VerifyAPIToken { APIToken := "tok-B" }] ∧
      (pathConfigTokenWrite (sampleEnv "active" true) configuredStorage
        { token := some "tok-B" }).storage = configuredStorage) ∧
    ((pathConfigTokenWrite (sampleEnv "active" false) configuredStorage
        { token := some "tok-B" }).result = .ok none ∧
      (pathConfigTokenWrite (sampleEnv "active" false) configuredStorage
        { token := some "tok-B" }).storage.stored configTokenKey =
        some (rootTokenConfig.EncodeJSON { Token := "tok-B", TokenID := "id-1" })) :=
  ⟨(((pathConfigTokenWrite_sound (sampleEnv "active" false) emptyStorage "tok-B").2.2.1
      rfl (by intro v hv; cases hv) (by decide)).2.2
      { ID := "id-1", Status := "active" } rfl rfl).2.1 rfl,
   ((pathConfigTokenWrite_sound (sampleEnv "disabled" false) emptyStorage "tok-B").2.2.1
      rfl (by intro v hv; cases hv) (by decide)).2.1
      (by intro resp h; cases h; decide),
   ((pathConfigTokenWrite_sound (sampleEnv "disabled" false) configuredStorage "tok-B").2.2.1
      rfl (by intro v hv; cases hv; exact ⟨_, rfl⟩) (by decide)).2.1
      (by intro resp h; cases h; decide),
   ((pathConfigTokenWrite_sound (sampleEnv "active" true) configuredStorage "tok-B").2.2.1
      rfl (by intro v hv; cases hv; exact ⟨_, rfl⟩) (by decide)).2.1
      (by intro resp h; cases h),
   (((pathConfigTokenWrite_sound (sampleEnv "active" false) configuredStorage "tok-B").2.2.1
      rfl (by intro v hv; cases hv; exact ⟨_, rfl⟩) (by decide)).2.2
      { ID := "id-1", Status := "active" } rfl rfl).2.1 rfl⟩

/-- With a readable store that has no entry under `config/token`, the rotation
ends in the nil dereference of `backend.client`: the test for a missing
configuration further down is never reached. -/
theorem rotate_root_unconfigured_panics (env : Env) (storage : Storage)
    (hget : storage.getFault = none) (hnone : storage.stored configTokenKey = none) :
    pathConfigRotateRootUpdate env storage =
      { result := .panic nilDereference, storage := storage, events := [] } := by
  simp [pathConfigRotateRootUpdate, client, readConfigToken, Storage.Get, hget, hnone]

/-- C2 (the code departs from the claim): rotating the root credential on an empty,
healthy store makes no remote call and no storage write, but it does not end
with a configuration error: it ends in a nil pointer dereference. -/
theorem rotate_root_unconfigured :
    emptyStorage.stored configTokenKey = none ∧
    pathConfigRotateRootUpdate (sampleEnv "active" false) emptyStorage =
      { result := .panic nilDereference, storage := emptyStorage, events := [] } := by
  decide

/-- Whatever `RollAPIToken` answers, error or not, the rotation stores the value it
returned together with the old id and reports success. -/
theorem rotate_root_ignores_remote_error (env : Env) (storage : Storage)
    (config : rootTokenConfig) (entry : StorageValue)
    (hget : storage.getFault = none) (hput : storage.putFault = none)
    (hentry : storage.stored configTokenKey = some entry)
    (hdec : rootTokenConfig.DecodeJSON entry = .ok config) (htok : config.Token ≠ "") :
    (pathConfigRotateRootUpdate env storage).result =
        .ok (some { Data := [("id", config.TokenID)], Secret := none }) ∧
    (pathConfigRotateRootUpdate env storage).storage.stored configTokenKey =
        some (rootTokenConfig.EncodeJSON
          { Token := (env.RollAPIToken { APIToken := config.Token } config.TokenID).1,
            TokenID := config.TokenID }) := by
  have hread : readConfigToken storage = .ok (some config) := by
    simp [readConfigToken, Storage.Get, hget, hentry, hdec]
  have hcl : client storage = .ok { APIToken := config.Token } := by
    simp [client, hread, createClient, htok]
  simp only [pathConfigRotateRootUpdate, hcl, Storage.Get, hget, hentry, hdec, htok,
    Storage.Put, hput, if_false]
  simp [Storage.stored]

/-- C3 (the code departs from the claim): with the root credential `tok-A` / `id-1`
stored and a remote whose regenerate call fails (returning the empty value and
an error), the rotation still writes to the store: the entry under
`config/token` becomes the empty token with id `id-1`, and the handler answers
with the id as if the rotation had succeeded. -/
theorem rotate_root_remote_failure :
    (sampleEnv "active" false).RollAPIToken { APIToken := "tok-A" } "id-1" =
      ("", some (.apiRequest 403 "forbidden")) ∧
    pathConfigRotateRootUpdate (sampleEnv "active" false) configuredStorage =
      { result := .ok (some { Data := [("id", "id-1")], Secret := none }),
        storage :=
          { entries := [(configTokenKey,
              rootTokenConfig.EncodeJSON { Token := "", TokenID := "id-1" })],
            getFault := none, putFault := none },
        events := [.RollAPIToken { APIToken := "tok-A" } "id-1",
          .StoragePut configTokenKey
            (rootTokenConfig.EncodeJSON { Token := "", TokenID := "id-1" })] } := by
  decide

/-- The remainder of a time modulo one second lies in `[0, 1s)`, so truncation to
the second moves a time back by less than a second. -/
theorem Truncate_Second_bounds (t : Int) :
    Truncate t Second ≤ t ∧ t < Truncate t Second + Second := by
  unfold Truncate Second
  simp only [show ¬ ((1000000000 : Int) ≤ 0) by decide, if_false]
  omega

/-- C5 as stated fails: when the TTL rule answers `0` and the clock reads 1.5s, the
expiry sent to the remote is 1s, earlier than `now + ttl` = 1.5s. -/
theorem secretTokenRenew_expiry_counterexample :
    ¬ ∀ (env : Env) (storage : Storage) (secret : Secret) (now : Int) (c : API) (id : String)
        (tok : APIToken) (exp : Int) (lease? : Option configLease) (ttl : Int),
        Event.UpdateAPIToken c id tok ∈ (secretTokenRenew env storage secret now).events →
        tok.ExpiresOn = some exp →
        env.LeaseConfig storage = .ok lease? →
        env.CalculateTTL secret.Increment (lease?.getD { TTL := 0, MaxTTL := 0 }).TTL 0
          (lease?.getD { TTL := 0, MaxTTL := 0 }).MaxTTL 0 secret.IssueTime = .ok ttl →
        now + ttl ≤ exp := by
  intro h
  have := h (ttlEnv 0) configuredStorage sampleSecret 1500000000 { APIToken := "tok-A" }
    "tok-id-7"
    { ID := "", Name := [], Value := "", Policies := [], Condition := none,
      ExpiresOn := some 1000000000 }
    1000000000 none 0 (by decide) rfl rfl rfl
  exact absurd this (by decide)

/-- C5, amended: the expiry `secretTokenRenew` sends to the remote update call is
`now` truncated to the second plus `ttl` plus one minute when the TTL rule
answers a positive `ttl`, and then it is not earlier than `now + ttl`; when the
rule answers a `ttl` that is not positive the expiry is `now` truncated to the
second, with no margin. -/
theorem secretTokenRenew_expiry (env : Env) (storage : Storage) (secret : Secret) (now : Int)
    (c : API) (id : String) (tok : APIToken)
    (hcall : Event.UpdateAPIToken c id tok ∈ (secretTokenRenew env storage secret now).events) :
    ∃ (lease? : Option configLease) (ttl : Int),
      env.LeaseConfig storage = .ok lease? ∧
      env.CalculateTTL secret.Increment (lease?.getD { TTL := 0, MaxTTL := 0 }).TTL 0
        (lease?.getD { TTL := 0, MaxTTL := 0 }).MaxTTL 0 secret.IssueTime = .ok ttl ∧
      (0 < ttl → tok.ExpiresOn = some (Truncate now Second + ttl + Minute) ∧
        now + ttl ≤ Truncate now Second + ttl + Minute) ∧
      (ttl ≤ 0 → tok.ExpiresOn = some (Truncate now Second)) := by
  unfold secretTokenRenew at hcall
  split at hcall
  · simp at hcall
  · simp at hcall
  · split at hcall
    · simp at hcall
    · rename_i lease? hlease
      simp only at hcall
      split at hcall
      · simp at hcall
      · split at hcall
        · simp at hcall
        · rename_i ttl httl
          refine ⟨lease?, ttl, hlease, httl, ?_, ?_⟩
          · intro hpos
            have hb := Truncate_Second_bounds now
            have htok : tok.ExpiresOn = some (Truncate now Second + ttl + Minute) := by
              split at hcall <;> simp [hpos] at hcall <;> simp [hcall.2.2]
            refine ⟨htok, ?_⟩
            unfold Minute
            unfold Second at hb ⊢
            omega
          · intro hneg
            have hnot : ¬ ttl > 0 := by omega
            split at hcall <;> simp [hnot] at hcall <;> simp [hcall.2.2]

/-- C5 amended, at concrete inputs: with a TTL of one hour and the clock at 1.5s
the expiry sent is 1s + 1h + 1min, which is not earlier than 1.5s + 1h. -/
theorem secretTokenRenew_expiry_witness :
    (1500000000 : Int) + 3600000000000 ≤ Truncate 1500000000 Second + 3600000000000 + Minute :=
  match secretTokenRenew_expiry (ttlEnv 3600000000000) configuredStorage sampleSecret
      1500000000 { APIToken := "tok-A" } "tok-id-7"
      { ID := "", Name := [], Value := "", Policies := [], Condition := none,
        ExpiresOn := some 3661000000000 } (by decide) with
  | ⟨_, ttl, _, httl, hpos, _⟩ =>
    have h : ttl = 3600000000000 := by
      simpa [ttlEnv] using httl.symm
    h ▸ (hpos (h ▸ (by decide))).2

/-! ## The role round trip (C6) -/

/-- The function `compactJSON` on a document the scanner accepts: no error, and an
output that is again accepted, has the JSON value of the input, is the input
without some of its spaces, and is left unchanged by `compactJSON`. -/
theorem compactJSON_spec (p : String) (hvalid : checkValid p.toList = none) :
    compactJSON p = ((compactJSON p).1, none) ∧
    checkValid (compactJSON p).1.toList = none ∧
    jsonValue (compactJSON p).1.toList = jsonValue p.toList ∧
    decoderView newScanner (compactJSON p).1.toList = decoderView newScanner p.toList ∧
    spaceErased p.toList (compactJSON p).1.toList = true ∧
    compactJSON (compactJSON p).1 = ((compactJSON p).1, none) := by
  have hc := (checkValid_iff_Compact p.toList).1 hvalid
  obtain ⟨h1, h2, -, h4⟩ := Compact_spec p.toList hc
  have hlist : (compactJSON p).1.toList = (Compact p.toList).1 := rfl
  have hidem : compactJSON (compactJSON p).1 = ((compactJSON p).1, none) := by
    show (String.mk (Compact (compactJSON p).1.toList).1, (Compact (compactJSON p).1.toList).2) = _
    rw [hlist, h1]
    rfl
  refine ⟨?_, ?_, ?_, ?_, ?_, hidem⟩
  · show (String.mk (Compact p.toList).1, (Compact p.toList).2) = _
    rw [hc]
    rfl
  · rw [checkValid_iff_Compact, hlist, h1]
  · unfold jsonValue
    rw [hlist, h2]
  · rw [hlist, h2]
  · rw [hlist]
    exact h4

/-- For a non-empty role name, `roleRead` succeeds exactly on a store that serves
the read and whose entry for the role is absent or decodes. -/
theorem roleRead_ok_iff (storage : Storage) (name : String) (hname : name ≠ "") :
    (∃ prior, roleRead storage name = .ok prior) ↔
      (storage.getFault = none ∧
        ∀ v, storage.stored ("role/" ++ name) = some v →
          ∃ e, cloudflareRoleEntry.DecodeJSON v = .ok e) := by
  unfold roleRead Storage.Get
  rw [if_neg hname]
  cases hg : storage.getFault with
  | some e => simp
  | none =>
    cases hs : storage.stored ("role/" ++ name) with
    | none => simp
    | some v =>
      cases hd : cloudflareRoleEntry.DecodeJSON v with
      | error e => simp [hd]
      | ok entry => simp [hd]

/-- C6: the role round trip, for a role name that is not empty (the route
`roles/<name>` of path_roles.go matches names of at least one character only)
and a non-empty policy document `p` that is valid JSON.  The document `q` that
`compactJSON` makes of `p` is valid JSON, has the same JSON value as `p`, is `p`
without some of its white space, and `compactJSON q` is `q`.  On a store that
serves its reads and writes and whose previous entry for the role, if any,
decodes, writing the role with `p` stores `q` by one `Put` and reading the role
back (`roleRead`, `pathRolesRead`) yields `q`.  The write answers with the
stored document exactly on such a store; on any other store it returns the
storage error and the role is not written. -/
theorem role_round_trip (env : Env) (storage : Storage) (name p : String)
    (hname : name ≠ "") (hp : p ≠ "") (hvalid : checkValid p.toList = none) :
    ∃ q : String,
      compactJSON p = (q, none) ∧
      checkValid q.toList = none ∧
      jsonValue q.toList = jsonValue p.toList ∧
      decoderView newScanner q.toList = decoderView newScanner p.toList ∧
      spaceErased p.toList q.toList = true ∧
      compactJSON q = (q, none) ∧
      (storage.getFault = none → storage.putFault = none →
        (∀ v, storage.stored ("role/" ++ name) = some v →
          ∃ e, cloudflareRoleEntry.DecodeJSON v = .ok e) →
        (pathRolesWrite env storage { name := name, policy_document := some p }).result =
          .ok (some { Data := [("policy_document", q)], Secret := none }) ∧
        (pathRolesWrite env storage { name := name, policy_document := some p }).events =
          [.StoragePut ("role/" ++ name)
            (cloudflareRoleEntry.EncodeJSON { PolicyDocument := q })] ∧
        roleRead (pathRolesWrite env storage { name := name, policy_document := some p }).storage
          name = .ok (some { PolicyDocument := q }) ∧
        (pathRolesRead
          (pathRolesWrite env storage { name := name, policy_document := some p }).storage
          { name := name, policy_document := none }).result =
          .ok (some { Data := [("policy_document", q)], Secret := none })) ∧
      (((pathRolesWrite env storage { name := name, policy_document := some p }).result =
          .ok (some { Data := [("policy_document", q)], Secret := none })) ↔
        (storage.getFault = none ∧ storage.putFault = none ∧
          ∀ v, storage.stored ("role/" ++ name) = some v →
            ∃ e, cloudflareRoleEntry.DecodeJSON v = .ok e)) ∧
      (¬ (storage.getFault = none ∧ storage.putFault = none ∧
          ∀ v, storage.stored ("role/" ++ name) = some v →
            ∃ e, cloudflareRoleEntry.DecodeJSON v = .ok e) →
        (∃ e, (pathRolesWrite env storage { name := name, policy_document := some p }).result =
          .err e) ∧
        (pathRolesWrite env storage { name := name, policy_document := some p }).storage =
          storage) := by
  obtain ⟨h1, h2, h3, h4, h5, h6⟩ := compactJSON_spec p hvalid
  have hiff := roleRead_ok_iff storage name hname
  -- the three ways the handler can end
  have hbad : ¬ (storage.getFault = none ∧ storage.putFault = none ∧
      ∀ v, storage.stored ("role/" ++ name) = some v →
        ∃ e, cloudflareRoleEntry.DecodeJSON v = .ok e) →
      (∃ e, (pathRolesWrite env storage { name := name, policy_document := some p }).result =
        .err e) ∧
      (pathRolesWrite env storage { name := name, policy_document := some p }).storage =
        storage := by
    intro hn
    cases hr : roleRead storage name with
    | error e =>
      have : pathRolesWrite env storage { name := name, policy_document := some p } =
          { result := .err e, storage := storage, events := [] } := by
        unfold pathRolesWrite
        dsimp only
        rw [if_neg hname, hr]
      rw [this]
      exact ⟨⟨e, rfl⟩, rfl⟩
    | ok prior =>
      obtain ⟨hg, hd⟩ := hiff.1 ⟨prior, hr⟩
      cases hf : storage.putFault with
      | none => exact absurd ⟨hg, hf, hd⟩ hn
      | some e =>
        have : pathRolesWrite env storage { name := name, policy_document := some p } =
            { result := .err e, storage := storage,
              events := [.StoragePut ("role/" ++ name)
                (cloudflareRoleEntry.EncodeJSON { PolicyDocument := (compactJSON p).1 })] } := by
          unfold pathRolesWrite
          dsimp only
          rw [if_neg hname, hr]
          dsimp only
          rw [if_pos hp, h1]
          dsimp only
          unfold Storage.Put
          rw [hf]
        rw [this]
        exact ⟨⟨e, rfl⟩, rfl⟩
  have hgood : storage.getFault = none → storage.putFault = none →
      (∀ v, storage.stored ("role/" ++ name) = some v →
        ∃ e, cloudflareRoleEntry.DecodeJSON v = .ok e) →
      (pathRolesWrite env storage { name := name, policy_document := some p }).result =
        .ok (some { Data := [("policy_document", (compactJSON p).1)], Secret := none }) ∧
      (pathRolesWrite env storage { name := name, policy_document := some p }).events =
        [.StoragePut ("role/" ++ name)
          (cloudflareRoleEntry.EncodeJSON { PolicyDocument := (compactJSON p).1 })] ∧
      roleRead (pathRolesWrite env storage { name := name, policy_document := some p }).storage
        name = .ok (some { PolicyDocument := (compactJSON p).1 }) ∧
      (pathRolesRead
        (pathRolesWrite env storage { name := name, policy_document := some p }).storage
        { name := name, policy_document := none }).result =
        .ok (some { Data := [("policy_document", (compactJSON p).1)], Secret := none }) := by
    intro hget hput hdec
    obtain ⟨prior, hprior⟩ := hiff.2 ⟨hget, hdec⟩
    have hwrite : pathRolesWrite env storage { name := name, policy_document := some p } =
        { result := .ok (some
            { Data := [("policy_document", (compactJSON p).1)], Secret := none }),
          storage := { storage with
            entries := ("role/" ++ name,
              cloudflareRoleEntry.EncodeJSON { PolicyDocument := (compactJSON p).1 }) ::
              storage.entries.filter (fun kv => kv.1 != "role/" ++ name) },
          events := [.StoragePut ("role/" ++ name)
            (cloudflareRoleEntry.EncodeJSON { PolicyDocument := (compactJSON p).1 })] } := by
      unfold pathRolesWrite
      dsimp only
      rw [if_neg hname, hprior]
      dsimp only
      rw [if_pos hp, h1]
      dsimp only
      unfold Storage.Put
      rw [hput]
      rfl
    have hback : roleRead (pathRolesWrite env storage
        { name := name, policy_document := some p }).storage name =
        .ok (some { PolicyDocument := (compactJSON p).1 }) := by
      rw [hwrite]
      unfold roleRead Storage.Get
      rw [if_neg hname]
      dsimp only
      rw [hget]
      simp [Storage.stored, cloudflareRoleEntry.DecodeJSON, cloudflareRoleEntry.EncodeJSON,
        cloudflareRoleEntry.toMap, decodeStringField]
    refine ⟨?_, ?_, hback, ?_⟩
    · rw [hwrite]
    · rw [hwrite]
    · unfold pathRolesRead
      dsimp only
      rw [hback]
      rfl
  refine ⟨(compactJSON p).1, h1, h2, h3, h4, h5, h6, hgood, ⟨?_, ?_⟩, hbad⟩
  · intro hres
    by_contra hn
    obtain ⟨⟨e, he⟩, -⟩ := hbad hn
    rw [he] at hres
    cases hres
  · rintro ⟨hg, hf, hd⟩
    exact (hgood hg hf hd).1

/-- C6, at the role `deploy`: writing `[ {"effect" : "allow"} ]` and reading the
role back yields `[{"effect":"allow"}]`, which is what is read back when
`[{"effect":"allow"}]` itself is written; the JSON value of both is an array
holding one object with the member `effect`. -/
theorem role_round_trip_witness :
    roleRead (pathRolesWrite (sampleEnv "active" false) emptyStorage
      { name := "deploy", policy_document := some spacedPolicy }).storage "deploy" =
      .ok (some { PolicyDocument := samplePolicy }) ∧
    roleRead (pathRolesWrite (sampleEnv "active" false) emptyStorage
      { name := "deploy", policy_document := some samplePolicy }).storage "deploy" =
      .ok (some { PolicyDocument := samplePolicy }) ∧
    jsonValue spacedPolicy.toList =
      some (.array [.object [("\"effect\"", .literal "\"allow\"")]]) ∧
    (∃ q : String, compactJSON spacedPolicy = (q, none) ∧
      jsonValue q.toList = jsonValue spacedPolicy.toList ∧
      roleRead (pathRolesWrite (sampleEnv "active" false) emptyStorage
        { name := "deploy", policy_document := some spacedPolicy }).storage "deploy" =
        .ok (some { PolicyDocument := q })) ∧
    (∃ q : String, compactJSON samplePolicy = (q, none) ∧
      jsonValue q.toList = jsonValue samplePolicy.toList ∧
      roleRead (pathRolesWrite (sampleEnv "active" false) issuingStorage
        { name := "deploy", policy_document := some samplePolicy }).storage "deploy" =
        .ok (some { PolicyDocument := q })) :=
  ⟨by rfl, by rfl, by rfl,
   match role_round_trip (sampleEnv "active" false) emptyStorage "deploy" spacedPolicy
      (by decide) (by decide) (by decide) with
   | ⟨q, hq, _, hval, _, _, _, hstore, _⟩ =>
     ⟨q, hq, hval, (hstore rfl rfl
       (by intro v hv; cases hv)).2.2.1⟩,
   match role_round_trip (sampleEnv "active" false) issuingStorage "deploy" samplePolicy
      (by decide) (by decide) (by decide) with
   | ⟨q, hq, _, hval, _, _, _, hstore, _⟩ =>
     ⟨q, hq, hval, (hstore rfl rfl
       (by intro v hv; cases hv; exact ⟨_, rfl⟩)).2.2.1⟩⟩

/-! ## Issuing credentials (C7, C9, C10) -/

/-- The handler `pathCredsRead` never changes the storage. -/
theorem pathCredsRead_storage (env : Env) (storage : Storage) (d : CredsData)
    (now nameNow : Int) : (pathCredsRead env storage d now nameNow).storage = storage := by
  unfold pathCredsRead
  cases readCondition env d with
  | error e => rfl
  | ok cond =>
    dsimp only
    cases roleRead storage d.role with
    | error e => rfl
    | ok r =>
      cases r with
      | none => rfl
      | some roleEntry =>
        dsimp only
        cases readPolicies env roleEntry with
        | error e => rfl
        | ok policies =>
          dsimp only
          cases client storage with
          | panic msg => rfl
          | err e => rfl
          | ok c =>
            dsimp only
            cases env.LeaseConfig storage with
            | error e => rfl
            | ok lease? =>
              dsimp only
              split
              · rfl
              · split <;> rfl

/-- A condition that is present, non-empty and refused by the scanner makes the
first step of `pathCredsRead` fail. -/
theorem readCondition_invalid (env : Env) (d : CredsData) (raw : String)
    (hraw : d.condition = some raw) (hne : raw ≠ "") (hbad : checkValid raw.toList ≠ none) :
    ∃ e, readCondition env d = .error e := by
  unfold readCondition jsonUnmarshal
  rw [hraw]
  simp only [hne, ne_eq, not_false_eq_true, if_true]
  cases hv : checkValid raw.toList with
  | none => exact absurd hv hbad
  | some e => exact ⟨_, rfl⟩

/-- When the first step of `pathCredsRead` succeeds, a condition that is present and
non-empty has been accepted by the scanner. -/
theorem readCondition_ok (env : Env) (d : CredsData) (cond : APITokenCondition)
    (h : readCondition env d = .ok cond) (raw : String) (hraw : d.condition = some raw)
    (hne : raw ≠ "") : checkValid raw.toList = none := by
  cases hv : checkValid raw.toList with
  | none => rfl
  | some e =>
    obtain ⟨e', he'⟩ := readCondition_invalid env d raw hraw hne (by rw [hv]; simp)
    rw [he'] at h
    cases h

/-- Reading a role that has no stored entry gives an error or the nil entry. -/
theorem roleRead_absent (storage : Storage) (roleName : String)
    (h : storage.stored ("role/" ++ roleName) = none) :
    (∃ e, roleRead storage roleName = .error e) ∨ roleRead storage roleName = .ok none := by
  unfold roleRead Storage.Get
  by_cases hn : roleName = ""
  · left; simp [hn]
  · cases hf : storage.getFault with
    | some e => left; simp [hn]
    | none => right; simp [hn, h]

/-- C7: `pathCredsRead` calls the remote only if the condition of the request, when
present and non-empty, is valid JSON and the role has a stored entry.  A request
whose condition is non-empty and not valid JSON gets the error response of the
condition; a request for a role without stored entry gets an error response,
which for a named role on a readable store and an accepted condition is the one
saying that the role was not found; in both cases no remote call and no storage
write is made and the storage is unchanged. -/
theorem pathCredsRead_guards (env : Env) (storage : Storage) (d : CredsData)
    (now nameNow : Int) :
    (∀ raw, d.condition = some raw → raw ≠ "" → checkValid raw.toList ≠ none →
      (∃ e, (pathCredsRead env storage d now nameNow).result =
        .ok (some (ErrorResponse ("err while decoding 'condition'. err: " ++ e)))) ∧
      (pathCredsRead env storage d now nameNow).events = [] ∧
      (pathCredsRead env storage d now nameNow).storage = storage) ∧
    (storage.stored ("role/" ++ d.role) = none →
      (∃ msg, (pathCredsRead env storage d now nameNow).result =
        .ok (some (ErrorResponse msg))) ∧
      (pathCredsRead env storage d now nameNow).events = [] ∧
      (pathCredsRead env storage d now nameNow).storage = storage) ∧
    (storage.stored ("role/" ++ d.role) = none → d.role ≠ "" → storage.getFault = none →
      ∀ cond, readCondition env d = .ok cond →
      (pathCredsRead env storage d now nameNow).result =
        .ok (some (ErrorResponse
          ("could not find entry for role '" ++ d.role ++ "', did you configure it?")))) ∧
    ((pathCredsRead env storage d now nameNow).events ≠ [] →
      (∀ raw, d.condition = some raw → raw ≠ "" → checkValid raw.toList = none) ∧
      (storage.stored ("role/" ++ d.role)).isSome) := by
  refine ⟨?_, ?_, ?_, ?_⟩
  · intro raw hraw hne hbad
    obtain ⟨e, he⟩ := readCondition_invalid env d raw hraw hne hbad
    refine ⟨⟨e, ?_⟩, ?_, pathCredsRead_storage ..⟩ <;> simp [pathCredsRead, he]
  · intro habs
    refine ⟨?_, ?_, pathCredsRead_storage ..⟩
    · cases hc : readCondition env d with
      | error e => exact ⟨_, by simp only [pathCredsRead, hc]; rfl⟩
      | ok cond =>
        rcases roleRead_absent storage d.role habs with ⟨e, he⟩ | he
        · exact ⟨_, by simp only [pathCredsRead, hc, he]; rfl⟩
        · exact ⟨_, by simp only [pathCredsRead, hc, he]; rfl⟩
    · cases hc : readCondition env d with
      | error e => simp [pathCredsRead, hc]
      | ok cond =>
        rcases roleRead_absent storage d.role habs with ⟨e, he⟩ | he <;>
          simp [pathCredsRead, hc, he]
  · intro habs hrole hget cond hc
    have he : roleRead storage d.role = .ok none := by
      simp [roleRead, Storage.Get, hrole, hget, habs]
    simp [pathCredsRead, hc, he]
  · intro hev
    cases hc : readCondition env d with
    | error e => simp [pathCredsRead, hc] at hev
    | ok cond =>
      refine ⟨fun raw hraw hne => readCondition_ok env d cond hc raw hraw hne, ?_⟩
      cases hs : storage.stored ("role/" ++ d.role) with
      | some v => rfl
      | none =>
        rcases roleRead_absent storage d.role hs with ⟨e, he⟩ | he <;>
          simp [pathCredsRead, hc, he] at hev

/-- C7, at concrete inputs: on a store holding the role `deploy`, a request with
the condition `{not valid json` and a request for the role `unknown-role` both
end in an error response without any effect. -/
theorem pathCredsRead_guards_witness :
    (pathCredsRead (sampleEnv "active" false) issuingStorage
      { role := "deploy", condition := some "\x7bnot valid json" } 0 0).events = [] ∧
    (pathCredsRead (sampleEnv "active" false) issuingStorage
      { role := "unknown-role", condition := none } 0 0).result =
      .ok (some (ErrorResponse
        "could not find entry for role 'unknown-role', did you configure it?")) :=
  ⟨((pathCredsRead_guards (sampleEnv "active" false) issuingStorage
      { role := "deploy", condition := some "\x7bnot valid json" } 0 0).1
      "\x7bnot valid json" rfl (by decide) (by decide)).2.1,
   (pathCredsRead_guards (sampleEnv "active" false) issuingStorage
      { role := "unknown-role", condition := none } 0 0).2.2.1
      (by decide) (by decide) rfl { In := [], NotIn := [] } rfl⟩

/-- The effects of `pathCredsRead`: none, or the one create-token call made with the
expiry `now + ttl` truncated to the second, where `ttl` is the answer of the TTL
rule for the stored lease policy. -/
theorem pathCredsRead_events (env : Env) (storage : Storage) (d : CredsData)
    (now nameNow : Int) (ev : Event)
    (hev : ev ∈ (pathCredsRead env storage d now nameNow).events) :
    ∃ (c : API) (tok : APIToken) (lease? : Option configLease) (ttl : Int),
      ev = .CreateAPIToken c tok ∧
      (pathCredsRead env storage d now nameNow).events = [.CreateAPIToken c tok] ∧
      client storage = .ok c ∧
      env.LeaseConfig storage = .ok lease? ∧
      env.CalculateTTL 0 (lease?.getD { TTL := 0, MaxTTL := 0 }).TTL 0
        (lease?.getD { TTL := 0, MaxTTL := 0 }).MaxTTL 0 zeroTime = .ok ttl ∧
      tok.ExpiresOn = some (Truncate (now + ttl) Second) ∧
      tok.Name = createTokenName env d.role nameNow ∧
      ((∃ e, env.CreateAPIToken c tok = .error e ∧
          (pathCredsRead env storage d now nameNow).result =
            .ok (some (ErrorResponse ("failed to create token. err: " ++ e.Error)))) ∨
       (∃ created, env.CreateAPIToken c tok = .ok created ∧
          (pathCredsRead env storage d now nameNow).result =
            .ok (some
              { Data := [("id", created.ID), ("token", created.Value)],
                Secret := some
                  { InternalData := [("id", created.ID), ("token", created.Value),
                      ("secret_type", SecretTokenType)],
                    TTL := (lease?.getD { TTL := 0, MaxTTL := 0 }).TTL,
                    MaxTTL := (lease?.getD { TTL := 0, MaxTTL := 0 }).MaxTTL,
                    Increment := 0, IssueTime := zeroTime } }))) := by
  unfold pathCredsRead at hev ⊢
  cases hc : readCondition env d with
  | error e => simp [hc] at hev
  | ok cond =>
    simp only [hc] at hev ⊢
    cases hr : roleRead storage d.role with
    | error e => simp [hr] at hev
    | ok r =>
      cases r with
      | none => simp [hr] at hev
      | some roleEntry =>
        simp only [hr] at hev ⊢
        cases hpol : readPolicies env roleEntry with
        | error e => simp [hpol] at hev
        | ok policies =>
          simp only [hpol] at hev ⊢
          cases hcl : client storage with
          | panic msg => simp [hcl] at hev
          | err e => simp [hcl] at hev
          | ok c =>
            simp only [hcl] at hev ⊢
            cases hl : env.LeaseConfig storage with
            | error e => simp [hl] at hev
            | ok lease? =>
              simp only [hl] at hev ⊢
              cases ht : env.CalculateTTL 0 (lease?.getD { TTL := 0, MaxTTL := 0 }).TTL 0
                  (lease?.getD { TTL := 0, MaxTTL := 0 }).MaxTTL 0 zeroTime with
              | error e => simp [ht] at hev
              | ok ttl =>
                simp only [ht] at hev ⊢
                cases hcr : env.CreateAPIToken c
                    { ID := "", Name := createTokenName env d.role nameNow, Value := "",
                      Policies := policies, Condition := some cond,
                      ExpiresOn := some (Truncate (now + ttl) Second) } with
                | error e =>
                  simp only [hcr, List.mem_singleton] at hev ⊢
                  refine ⟨c, _, lease?, ttl, hev, ?_, ?_, ?_, ?_, ?_, ?_, Or.inl ⟨e, hcr, ?_⟩⟩
                  all_goals first | rfl | assumption
                | ok created =>
                  simp only [hcr, List.mem_singleton] at hev ⊢
                  refine ⟨c, _, lease?, ttl, hev, ?_, ?_, ?_, ?_, ?_, ?_,
                    Or.inr ⟨created, hcr, ?_⟩⟩
                  all_goals first | rfl | assumption

/-- C9 as stated fails: with a TTL of 0.7s and the clock at 1.5s the expiry sent
in the create-token request is 2s (`now + ttl` truncated), not 1s + 0.7s. -/
theorem pathCredsRead_expiry_counterexample :
    ¬ ∀ (env : Env) (storage : Storage) (d : CredsData) (now nameNow : Int) (c : API)
        (tok : APIToken) (lease? : Option configLease) (ttl : Int),
        Event.CreateAPIToken c tok ∈ (pathCredsRead env storage d now nameNow).events →
        env.LeaseConfig storage = .ok lease? →
        env.CalculateTTL 0 (lease?.getD { TTL := 0, MaxTTL := 0 }).TTL 0
          (lease?.getD { TTL := 0, MaxTTL := 0 }).MaxTTL 0 zeroTime = .ok ttl →
        tok.ExpiresOn = some (Truncate now Second + ttl) := by
  intro h
  have := h (ttlEnv 700000000) issuingStorage { role := "deploy", condition := none }
    1500000000 0 { APIToken := "tok-A" }
    { ID := "", Name := createTokenName (ttlEnv 700000000) "deploy" 0, Value := "",
      Policies := [], Condition := some { In := [], NotIn := [] },
      ExpiresOn := some 2000000000 }
    none 700000000 (by decide) rfl rfl
  exact absurd this (by decide)

/-- C9, amended: the expiry `pathCredsRead` sends in the create-token request is
`now + ttl` truncated to the second, where `ttl` is the answer of the TTL rule;
it equals `now` truncated to the second plus `ttl` whenever `ttl` is a whole
number of seconds. -/
theorem pathCredsRead_expiry (env : Env) (storage : Storage) (d : CredsData)
    (now nameNow : Int) (c : API) (tok : APIToken)
    (hcall : Event.CreateAPIToken c tok ∈ (pathCredsRead env storage d now nameNow).events) :
    ∃ (lease? : Option configLease) (ttl : Int),
      env.LeaseConfig storage = .ok lease? ∧
      env.CalculateTTL 0 (lease?.getD { TTL := 0, MaxTTL := 0 }).TTL 0
        (lease?.getD { TTL := 0, MaxTTL := 0 }).MaxTTL 0 zeroTime = .ok ttl ∧
      tok.ExpiresOn = some (Truncate (now + ttl) Second) ∧
      (ttl % Second = 0 → tok.ExpiresOn = some (Truncate now Second + ttl)) := by
  obtain ⟨c', tok', lease?, ttl, heq, -, -, hl, ht, hexp, -, -⟩ :=
    pathCredsRead_events env storage d now nameNow _ hcall
  cases heq
  refine ⟨lease?, ttl, hl, ht, hexp, ?_⟩
  intro hmod
  rw [hexp]
  congr 1
  unfold Truncate Second at *
  simp only [show ¬ ((1000000000 : Int) ≤ 0) by decide, if_false]
  omega

/-- C9 amended, at concrete inputs: with a TTL of one hour and the clock at 1.5s
the expiry sent is 1s + 1h. -/
theorem pathCredsRead_expiry_witness :
    ∃ tok : APIToken,
      Event.CreateAPIToken { APIToken := "tok-A" } tok ∈
        (pathCredsRead (ttlEnv 3600000000000) issuingStorage
          { role := "deploy", condition := none } 1500000000 0).events ∧
      tok.ExpiresOn = some (Truncate 1500000000 Second + 3600000000000) :=
  ⟨{ ID := "", Name := createTokenName (ttlEnv 3600000000000) "deploy" 0, Value := "",
      Policies := [], Condition := some { In := [], NotIn := [] },
      ExpiresOn := some 3601000000000 },
    by decide,
    match pathCredsRead_expiry (ttlEnv 3600000000000) issuingStorage
        { role := "deploy", condition := none } 1500000000 0 { APIToken := "tok-A" }
        { ID := "", Name := createTokenName (ttlEnv 3600000000000) "deploy" 0, Value := "",
          Policies := [], Condition := some { In := [], NotIn := [] },
          ExpiresOn := some 3601000000000 } (by decide) with
    | ⟨_, ttl, _, httl, _, hsec⟩ =>
      have h : ttl = 3600000000000 := by
        simpa [ttlEnv] using httl.symm
      h ▸ hsec (h ▸ (by decide))⟩

/-- An error response is an error. -/
theorem ErrorResponse_IsError (msg : String) : (ErrorResponse msg).IsError = true := by
  simp [ErrorResponse, Response.IsError]

/-- C10 as stated fails: the internal data of the secret of a successful issuance
is not identical to its public data.  Issuing for the role `deploy` returns the
public data `id`, `token` and an internal map of three members, the third being
the `secret_type` the framework adds. -/
theorem pathCredsRead_secret_counterexample :
    ¬ ∀ (env : Env) (storage : Storage) (d : CredsData) (now nameNow : Int)
        (resp : Response) (sec : Secret),
        (pathCredsRead env storage d now nameNow).result = .ok (some resp) →
        resp.IsError = false →
        resp.Secret = some sec →
        sec.InternalData = resp.Data := by
  intro h
  have := h (ttlEnv 3600000000000) issuingStorage { role := "deploy", condition := none }
    1500000000 0
    { Data := [("id", "tok-id-7"), ("token", "secret-7")],
      Secret := some
        { InternalData := [("id", "tok-id-7"), ("token", "secret-7"), ("secret_type", "token")],
          TTL := 0, MaxTTL := 0, Increment := 0, IssueTime := zeroTime } }
    { InternalData := [("id", "tok-id-7"), ("token", "secret-7"), ("secret_type", "token")],
      TTL := 0, MaxTTL := 0, Increment := 0, IssueTime := zeroTime }
    (by decide) (by decide) rfl
  revert this
  decide

/-- The secret of a response of `pathCredsRead` that is not an error response: one
remote call was made, the create-token call; the public data are the id and the
value it returned; the internal data are the public data followed by the member
`secret_type`; the `ttl` and `maxTTL` of the lease are those of the stored lease
policy. -/
theorem pathCredsRead_ok_secret (env : Env) (storage : Storage) (d : CredsData)
    (now nameNow : Int) (resp : Response)
    (hres : (pathCredsRead env storage d now nameNow).result = .ok (some resp))
    (hok : resp.IsError = false) :
    ∃ (c : API) (tok created : APIToken) (lease? : Option configLease) (sec : Secret),
      (pathCredsRead env storage d now nameNow).events = [.CreateAPIToken c tok] ∧
      env.CreateAPIToken c tok = .ok created ∧
      env.LeaseConfig storage = .ok lease? ∧
      resp.Data = [("id", created.ID), ("token", created.Value)] ∧
      resp.Secret = some sec ∧
      sec.InternalData = resp.Data ++ [("secret_type", SecretTokenType)] ∧
      sec.InternalData.lookup "id" = resp.Data.lookup "id" ∧
      sec.InternalData.lookup "token" = resp.Data.lookup "token" ∧
      sec.InternalData.lookup "id" = some created.ID ∧
      sec.InternalData.lookup "token" = some created.Value ∧
      sec.InternalData.lookup "secret_type" = some "token" ∧
      sec.TTL = (lease?.getD { TTL := 0, MaxTTL := 0 }).TTL ∧
      sec.MaxTTL = (lease?.getD { TTL := 0, MaxTTL := 0 }).MaxTTL ∧
      (lease? = none → sec.TTL = 0 ∧ sec.MaxTTL = 0) ∧
      sec.Increment = 0 ∧ sec.IssueTime = zeroTime := by
  have herr : ∀ msg, resp ≠ ErrorResponse msg := by
    intro msg h
    rw [h, ErrorResponse_IsError] at hok
    cases hok
  unfold pathCredsRead at hres ⊢
  cases hc : readCondition env d with
  | error e =>
    simp only [hc, Result.ok.injEq, Option.some.injEq] at hres
    exact absurd hres.symm (herr _)
  | ok cond =>
    simp only [hc] at hres ⊢
    cases hr : roleRead storage d.role with
    | error e =>
      simp only [hr, Result.ok.injEq, Option.some.injEq] at hres
      exact absurd hres.symm (herr _)
    | ok r =>
      cases r with
      | none =>
        simp only [hr, Result.ok.injEq, Option.some.injEq] at hres
        exact absurd hres.symm (herr _)
      | some roleEntry =>
        simp only [hr] at hres ⊢
        cases hpol : readPolicies env roleEntry with
        | error e =>
          simp only [hpol, Result.ok.injEq, Option.some.injEq] at hres
          exact absurd hres.symm (herr _)
        | ok policies =>
          simp only [hpol] at hres ⊢
          cases hcl : client storage with
          | panic msg => simp [hcl] at hres
          | err e => simp [hcl] at hres
          | ok c =>
            simp only [hcl] at hres ⊢
            cases hl : env.LeaseConfig storage with
            | error e => simp [hl] at hres
            | ok lease? =>
              simp only [hl] at hres ⊢
              cases ht : env.CalculateTTL 0 (lease?.getD { TTL := 0, MaxTTL := 0 }).TTL 0
                  (lease?.getD { TTL := 0, MaxTTL := 0 }).MaxTTL 0 zeroTime with
              | error e =>
                simp only [ht, Result.ok.injEq, Option.some.injEq] at hres
                exact absurd hres.symm (herr _)
              | ok ttl =>
                simp only [ht] at hres ⊢
                cases hcr : env.CreateAPIToken c
                    { ID := "", Name := createTokenName env d.role nameNow, Value := "",
                      Policies := policies, Condition := some cond,
                      ExpiresOn := some (Truncate (now + ttl) Second) } with
                | error e =>
                  simp only [hcr, Result.ok.injEq, Option.some.injEq] at hres
                  exact absurd hres.symm (herr _)
                | ok created =>
                  simp only [hcr, Result.ok.injEq, Option.some.injEq] at hres ⊢
                  subst hres
                  refine ⟨c, _, created, lease?, _, rfl, hcr, rfl, rfl, rfl, rfl, rfl, rfl,
                    rfl, rfl, rfl, rfl, rfl, ?_, rfl, rfl⟩
                  intro hnone
                  subst hnone
                  exact ⟨rfl, rfl⟩

/-- The run of `pathCredsRead` when every step succeeds: the response is built
from the created token and the stored lease policy, after one remote call. -/
theorem pathCredsRead_issued (env : Env) (storage : Storage) (d : CredsData)
    (now nameNow : Int) (cond : APITokenCondition) (roleEntry : cloudflareRoleEntry)
    (policies : List APITokenPolicies) (c : API) (lease? : Option configLease) (ttl : Int)
    (created : APIToken)
    (hc : readCondition env d = .ok cond)
    (hr : roleRead storage d.role = .ok (some roleEntry))
    (hpol : readPolicies env roleEntry = .ok policies)
    (hcl : client storage = .ok c)
    (hl : env.LeaseConfig storage = .ok lease?)
    (ht : env.CalculateTTL 0 (lease?.getD { TTL := 0, MaxTTL := 0 }).TTL 0
      (lease?.getD { TTL := 0, MaxTTL := 0 }).MaxTTL 0 zeroTime = .ok ttl)
    (hcr : env.CreateAPIToken c
      { ID := "", Name := createTokenName env d.role nameNow, Value := "",
        Policies := policies, Condition := some cond,
        ExpiresOn := some (Truncate (now + ttl) Second) } = .ok created) :
    pathCredsRead env storage d now nameNow =
      { result := .ok (some
          { Data := [("id", created.ID), ("token", created.Value)],
            Secret := some
              { InternalData := [("id", created.ID), ("token", created.Value),
                  ("secret_type", SecretTokenType)],
                TTL := (lease?.getD { TTL := 0, MaxTTL := 0 }).TTL,
                MaxTTL := (lease?.getD { TTL := 0, MaxTTL := 0 }).MaxTTL,
                Increment := 0, IssueTime := zeroTime } }),
        storage := storage,
        events := [.CreateAPIToken c
          { ID := "", Name := createTokenName env d.role nameNow, Value := "",
            Policies := policies, Condition := some cond,
            ExpiresOn := some (Truncate (now + ttl) Second) }] } := by
  unfold pathCredsRead
  simp only [hc, hr, hpol, hcl, hl, ht, hcr]
  rfl

/-- C10, amended: a successful issuance (a response that is not an error response)
made exactly one remote call, the create-token call, and its secret carries the
id and the value that call returned as public data; the internal data is the
public data followed by the member `secret_type` with the value `token`, so it
holds the same id and token; the `ttl` and `maxTTL` of the lease are those of the
stored lease policy, both zero when no lease policy is stored, whatever the
computed TTL; the issue time is left at the zero time.  The issuance is
successful, with that response, whenever the condition of the request is read,
the role is stored with policies that decode, the client is built, the lease
policy is read, the TTL is computed and the create-token call succeeds. -/
theorem pathCredsRead_secret (env : Env) (storage : Storage) (d : CredsData)
    (now nameNow : Int) :
    (∀ resp : Response,
      (pathCredsRead env storage d now nameNow).result = .ok (some resp) →
      resp.IsError = false →
      ∃ (c : API) (tok created : APIToken) (lease? : Option configLease) (sec : Secret),
        (pathCredsRead env storage d now nameNow).events = [.CreateAPIToken c tok] ∧
        env.CreateAPIToken c tok = .ok created ∧
        env.LeaseConfig storage = .ok lease? ∧
        resp.Data = [("id", created.ID), ("token", created.Value)] ∧
        resp.Secret = some sec ∧
        sec.InternalData = resp.Data ++ [("secret_type", SecretTokenType)] ∧
        sec.InternalData.lookup "id" = resp.Data.lookup "id" ∧
        sec.InternalData.lookup "token" = resp.Data.lookup "token" ∧
        sec.InternalData.lookup "id" = some created.ID ∧
        sec.InternalData.lookup "token" = some created.Value ∧
        sec.InternalData.lookup "secret_type" = some "token" ∧
        sec.TTL = (lease?.getD { TTL := 0, MaxTTL := 0 }).TTL ∧
        sec.MaxTTL = (lease?.getD { TTL := 0, MaxTTL := 0 }).MaxTTL ∧
        (lease? = none → sec.TTL = 0 ∧ sec.MaxTTL = 0) ∧
        sec.Increment = 0 ∧ sec.IssueTime = zeroTime) ∧
    (∀ (cond : APITokenCondition) (roleEntry : cloudflareRoleEntry)
        (policies : List APITokenPolicies) (c : API) (lease? : Option configLease)
        (ttl : Int) (created : APIToken),
      readCondition env d = .ok cond →
      roleRead storage d.role = .ok (some roleEntry) →
      readPolicies env roleEntry = .ok policies →
      client storage = .ok c →
      env.LeaseConfig storage = .ok lease? →
      env.CalculateTTL 0 (lease?.getD { TTL := 0, MaxTTL := 0 }).TTL 0
        (lease?.getD { TTL := 0, MaxTTL := 0 }).MaxTTL 0 zeroTime = .ok ttl →
      env.CreateAPIToken c
        { ID := "", Name := createTokenName env d.role nameNow, Value := "",
          Policies := policies, Condition := some cond,
          ExpiresOn := some (Truncate (now + ttl) Second) } = .ok created →
      (pathCredsRead env storage d now nameNow).result =
        .ok (some
          { Data := [("id", created.ID), ("token", created.Value)],
            Secret := some
              { InternalData := [("id", created.ID), ("token", created.Value),
                  ("secret_type", SecretTokenType)],
                TTL := (lease?.getD { TTL := 0, MaxTTL := 0 }).TTL,
                MaxTTL := (lease?.getD { TTL := 0, MaxTTL := 0 }).MaxTTL,
                Increment := 0, IssueTime := zeroTime } })) := by
  refine ⟨fun resp hres hok => pathCredsRead_ok_secret env storage d now nameNow resp hres hok,
    ?_⟩
  intro cond roleEntry policies c lease? ttl created hc hr hpol hcl hl ht hcr
  rw [pathCredsRead_issued env storage d now nameNow cond roleEntry policies c lease? ttl
    created hc hr hpol hcl hl ht hcr]

/-- C10, at concrete inputs: issuing for the role `deploy` with no lease policy
stored and a computed TTL of one hour returns the id and value of the created
token, the same two members and the secret type as internal data, and a lease
`ttl` and `maxTTL` of zero; with a lease policy of 30 minutes, at most 2 hours,
the lease carries these two values and not the computed hour. -/
theorem pathCredsRead_secret_witness :
    (pathCredsRead (ttlEnv 3600000000000) issuingStorage
      { role := "deploy", condition := none } 1500000000 0).result =
      .ok (some
        { Data := [("id", "tok-id-7"), ("token", "secret-7")],
          Secret := some
            { InternalData :=
                [("id", "tok-id-7"), ("token", "secret-7"), ("secret_type", "token")],
              TTL := 0, MaxTTL := 0, Increment := 0, IssueTime := zeroTime } }) ∧
    (pathCredsRead leasedEnv issuingStorage
      { role := "deploy", condition := none } 1500000000 0).result =
      .ok (some
        { Data := [("id", "tok-id-7"), ("token", "secret-7")],
          Secret := some
            { InternalData :=
                [("id", "tok-id-7"), ("token", "secret-7"), ("secret_type", "token")],
              TTL := 1800000000000, MaxTTL := 7200000000000, Increment := 0,
              IssueTime := zeroTime } }) ∧
    ∃ (c : API) (tok : APIToken),
      (pathCredsRead (ttlEnv 3600000000000) issuingStorage
        { role := "deploy", condition := none } 1500000000 0).events =
        [.CreateAPIToken c tok] :=
  ⟨(pathCredsRead_secret (ttlEnv 3600000000000) issuingStorage
      { role := "deploy", condition := none } 1500000000 0).2
      { In := [], NotIn := [] } { PolicyDocument := samplePolicy } [] { APIToken := "tok-A" }
      none 3600000000000
      { ID := "tok-id-7", Name := createTokenName (ttlEnv 3600000000000) "deploy" 0,
        Value := "secret-7", Policies := [], Condition := some { In := [], NotIn := [] },
        ExpiresOn := some 3601000000000 }
      rfl (by rfl) (by rfl) rfl rfl rfl rfl,
   (pathCredsRead_secret leasedEnv issuingStorage
      { role := "deploy", condition := none } 1500000000 0).2
      { In := [], NotIn := [] } { PolicyDocument := samplePolicy } [] { APIToken := "tok-A" }
      (some { TTL := 1800000000000, MaxTTL := 7200000000000 }) 3600000000000
      { ID := "tok-id-7", Name := createTokenName leasedEnv "deploy" 0,
        Value := "secret-7", Policies := [], Condition := some { In := [], NotIn := [] },
        ExpiresOn := some 3601000000000 }
      rfl (by rfl) (by rfl) rfl rfl rfl rfl,
   match (pathCredsRead_secret (ttlEnv 3600000000000) issuingStorage
      { role := "deploy", condition := none } 1500000000 0).1
      { Data := [("id", "tok-id-7"), ("token", "secret-7")],
        Secret := some
          { InternalData :=
              [("id", "tok-id-7"), ("token", "secret-7"), ("secret_type", "token")],
            TTL := 0, MaxTTL := 0, Increment := 0, IssueTime := zeroTime } }
      (by decide) (by decide) with
   | ⟨c, tok, _, _, _, hev, _⟩ => ⟨c, tok, hev⟩⟩

/-! ## Writing a role (C11) -/

/-- The response of a written role is not an error response. -/
theorem roleResponse_not_IsError (pd : String) :
    ({ Data := cloudflareRoleEntry.toMap { PolicyDocument := pd }, Secret := none } :
      Response).IsError = false := by
  simp [Response.IsError, cloudflareRoleEntry.toMap, List.lookup]

/-- The function `compactJSON` fails on the documents the scanner refuses. -/
theorem compactJSON_invalid (p : String) (h : checkValid p.toList ≠ none) :
    ∃ e, compactJSON p = ((compactJSON p).1, some e) := by
  have hc : (Compact p.toList).2 ≠ none := fun hn => h ((checkValid_iff_Compact _).2 hn)
  cases he : (Compact p.toList).2 with
  | none => exact absurd he hc
  | some e =>
    refine ⟨e, ?_⟩
    show (String.mk (Compact p.toList).1, (Compact p.toList).2) = _
    rw [he]
    rfl

/-- The handler `pathRolesWrite` when the role cannot be read. -/
theorem pathRolesWrite_unreadable (env : Env) (storage : Storage) (d : RoleData) (e : String)
    (hname : d.name ≠ "") (hread : roleRead storage d.name = .error e) :
    pathRolesWrite env storage d = { result := .err e, storage := storage, events := [] } := by
  unfold pathRolesWrite
  dsimp only
  rw [if_neg hname, hread]

/-- The handler `pathRolesWrite` on a policy document the scanner refuses. -/
theorem pathRolesWrite_invalid (env : Env) (storage : Storage) (name raw : String)
    (prior : Option cloudflareRoleEntry) (hname : name ≠ "")
    (hread : roleRead storage name = .ok prior) (hraw : raw ≠ "")
    (hbad : checkValid raw.toList ≠ none) :
    pathRolesWrite env storage { name := name, policy_document := some raw } =
      { result := .ok (some (ErrorResponse ("cannot parse policy document: " ++ env.quote raw))),
        storage := storage, events := [] } := by
  obtain ⟨e, he⟩ := compactJSON_invalid raw hbad
  unfold pathRolesWrite
  dsimp only
  rw [if_neg hname, hread]
  dsimp only
  rw [if_pos hraw, he]

/-- The handler `pathRolesWrite` when it reaches the storage write of the document
`doc`: the previous document when the request has no `policy_document` field,
the empty document when the field is empty, the compacted document otherwise. -/
theorem pathRolesWrite_run (env : Env) (storage : Storage) (name : String)
    (pd? : Option String) (prior : Option cloudflareRoleEntry) (doc : String)
    (hname : name ≠ "") (hread : roleRead storage name = .ok prior)
    (hdoc : match pd? with
      | none => doc = (prior.getD { PolicyDocument := "" }).PolicyDocument
      | some raw => (raw = "" ∧ doc = "") ∨ (raw ≠ "" ∧ compactJSON raw = (doc, none))) :
    pathRolesWrite env storage { name := name, policy_document := pd? } =
      match storage.Put ("role/" ++ name)
          (cloudflareRoleEntry.EncodeJSON { PolicyDocument := doc }) with
      | .error e =>
        { result := .err e, storage := storage,
          events := [.StoragePut ("role/" ++ name)
            (cloudflareRoleEntry.EncodeJSON { PolicyDocument := doc })] }
      | .ok storage' =>
        { result := .ok (some { Data := [("policy_document", doc)], Secret := none }),
          storage := storage',
          events := [.StoragePut ("role/" ++ name)
            (cloudflareRoleEntry.EncodeJSON { PolicyDocument := doc })] } := by
  unfold pathRolesWrite
  dsimp only
  rw [if_neg hname, hread]
  dsimp only
  cases pd? with
  | none =>
    dsimp only at hdoc ⊢
    subst hdoc
    rfl
  | some raw =>
    dsimp only at hdoc ⊢
    rcases hdoc with ⟨hr, hd⟩ | ⟨hr, hd⟩
    · rw [if_neg (by simp [hr]), hr, hd]
      rfl
    · rw [if_pos hr, hd]
      rfl

/-- A read of the role that succeeds was served by the store. -/
theorem roleRead_ok_getFault (storage : Storage) (name : String)
    (prior : Option cloudflareRoleEntry) (hname : name ≠ "")
    (hread : roleRead storage name = .ok prior) : storage.getFault = none := by
  cases hf : storage.getFault with
  | none => rfl
  | some e =>
    unfold roleRead Storage.Get at hread
    rw [if_neg hname, hf] at hread
    cases hread

/-- The effects and the outcome of `pathRolesWrite` when it reaches the storage
write of the document `doc`: one `Put` of that document, and on a store that
accepts the write the role read back holds `doc`. -/
theorem pathRolesWrite_put (env : Env) (storage : Storage) (name : String)
    (pd? : Option String) (prior : Option cloudflareRoleEntry) (doc : String)
    (hname : name ≠ "") (hread : roleRead storage name = .ok prior)
    (hdoc : match pd? with
      | none => doc = (prior.getD { PolicyDocument := "" }).PolicyDocument
      | some raw => (raw = "" ∧ doc = "") ∨ (raw ≠ "" ∧ compactJSON raw = (doc, none))) :
    (pathRolesWrite env storage { name := name, policy_document := pd? }).events =
      [.StoragePut ("role/" ++ name) (cloudflareRoleEntry.EncodeJSON { PolicyDocument := doc })] ∧
    (∀ resp, (pathRolesWrite env storage { name := name, policy_document := pd? }).result =
      .ok (some resp) → resp.IsError = false) ∧
    (storage.putFault = none →
      (pathRolesWrite env storage { name := name, policy_document := pd? }).result =
        .ok (some { Data := [("policy_document", doc)], Secret := none }) ∧
      roleRead (pathRolesWrite env storage { name := name, policy_document := pd? }).storage
        name = .ok (some { PolicyDocument := doc })) := by
  have hget := roleRead_ok_getFault storage name prior hname hread
  rw [pathRolesWrite_run env storage name pd? prior doc hname hread hdoc]
  cases hp : storage.Put ("role/" ++ name)
      (cloudflareRoleEntry.EncodeJSON { PolicyDocument := doc }) with
  | error e =>
    refine ⟨rfl, fun resp h => ?_, fun hf => ?_⟩
    · cases h
    · simp [Storage.Put, hf] at hp
  | ok st =>
    refine ⟨rfl, fun resp h => ?_, fun hf => ⟨rfl, ?_⟩⟩
    · simp only [Result.ok.injEq, Option.some.injEq] at h
      rw [← h]
      exact roleResponse_not_IsError doc
    · simp only [Storage.Put, hf, Except.ok.injEq] at hp
      subst hp
      unfold roleRead Storage.Get
      rw [if_neg hname]
      dsimp only
      rw [hget]
      simp [Storage.stored, cloudflareRoleEntry.DecodeJSON, cloudflareRoleEntry.EncodeJSON,
        cloudflareRoleEntry.toMap, decodeStringField]

/-- C11 as stated fails on a store whose entry for the role does not decode: the
policy document `{bad` is non-empty and not valid JSON, yet the handler answers
with the decoding error of the stored role, not with an error response. -/
theorem pathRolesWrite_policy_counterexample :
    ¬ ∀ (env : Env) (storage : Storage) (name raw : String), name ≠ "" →
        ((∃ resp, (pathRolesWrite env storage
            { name := name, policy_document := some raw }).result = .ok (some resp) ∧
            resp.IsError = true) ↔
          (raw ≠ "" ∧ checkValid raw.toList ≠ none)) := by
  intro h
  obtain ⟨resp, hres, -⟩ := (h (sampleEnv "active" false) corruptRoleStorage "deploy"
    "\x7bbad" (by decide)).2 ⟨by decide, by decide⟩
  have hrun : (pathRolesWrite (sampleEnv "active" false) corruptRoleStorage
      { name := "deploy", policy_document := some "\x7bbad" }).result =
      .err "invalid character looking for beginning of value" := rfl
  rw [hrun] at hres
  cases hres

/-- C11, amended to a role that can be read (the store serves the read and the
entry of the role is absent or decodes), for a non-empty role name.  An error
response of `pathRolesWrite` is the invalid-policy response and is given only
for a policy document that is non-empty and not valid JSON; when the role can be
read, every such document gets that response; such a document never leads to a
storage write and leaves the storage as it was.  A request without
`policy_document` field puts the previously stored policy document back
unchanged (the empty document for a new role), and on a store that accepts the
write the role read back holds that document. -/
theorem pathRolesWrite_policy (env : Env) (storage : Storage) (name : String)
    (pd? : Option String) (hname : name ≠ "") :
    (∀ resp, (pathRolesWrite env storage { name := name, policy_document := pd? }).result =
        .ok (some resp) → resp.IsError = true →
      ∃ raw, pd? = some raw ∧ raw ≠ "" ∧ checkValid raw.toList ≠ none ∧
        resp = ErrorResponse ("cannot parse policy document: " ++ env.quote raw)) ∧
    (∀ raw prior, pd? = some raw → raw ≠ "" → checkValid raw.toList ≠ none →
      roleRead storage name = .ok prior →
      (pathRolesWrite env storage { name := name, policy_document := pd? }).result =
        .ok (some (ErrorResponse ("cannot parse policy document: " ++ env.quote raw)))) ∧
    (∀ raw, pd? = some raw → raw ≠ "" → checkValid raw.toList ≠ none →
      (pathRolesWrite env storage { name := name, policy_document := pd? }).events = [] ∧
      (pathRolesWrite env storage { name := name, policy_document := pd? }).storage = storage) ∧
    (∀ prior, pd? = none → roleRead storage name = .ok prior →
      (pathRolesWrite env storage { name := name, policy_document := pd? }).events =
        [.StoragePut ("role/" ++ name)
          (cloudflareRoleEntry.EncodeJSON
            { PolicyDocument := (prior.getD { PolicyDocument := "" }).PolicyDocument })] ∧
      (storage.putFault = none →
        (pathRolesWrite env storage { name := name, policy_document := pd? }).result =
          .ok (some { Data := [("policy_document",
            (prior.getD { PolicyDocument := "" }).PolicyDocument)], Secret := none }) ∧
        roleRead (pathRolesWrite env storage { name := name, policy_document := pd? }).storage
          name = .ok (some
            { PolicyDocument := (prior.getD { PolicyDocument := "" }).PolicyDocument }))) := by
  refine ⟨?_, ?_, ?_, ?_⟩
  · intro resp hres herr
    cases hread : roleRead storage name with
    | error e =>
      rw [pathRolesWrite_unreadable env storage _ e hname hread] at hres
      cases hres
    | ok prior =>
      cases pd? with
      | none =>
        have h := (pathRolesWrite_put env storage name none prior _ hname hread rfl).2.1 resp hres
        rw [h] at herr
        cases herr
      | some raw =>
        by_cases hraw : raw = ""
        · have h := (pathRolesWrite_put env storage name (some raw) prior "" hname hread
            (Or.inl ⟨hraw, rfl⟩)).2.1 resp hres
          rw [h] at herr
          cases herr
        · cases hv : checkValid raw.toList with
          | none =>
            have hc := (compactJSON_spec raw hv).1
            have h := (pathRolesWrite_put env storage name (some raw) prior _ hname hread
              (Or.inr ⟨hraw, hc⟩)).2.1 resp hres
            rw [h] at herr
            cases herr
          | some e =>
            have hbad : checkValid raw.toList ≠ none := by rw [hv]; simp
            rw [pathRolesWrite_invalid env storage name raw prior hname hread hraw hbad] at hres
            simp only [Result.ok.injEq, Option.some.injEq] at hres
            exact ⟨raw, rfl, hraw, hbad, hres.symm⟩
  · intro raw prior hpd hraw hbad hread
    subst hpd
    rw [pathRolesWrite_invalid env storage name raw prior hname hread hraw hbad]
  · intro raw hpd hraw hbad
    subst hpd
    cases hread : roleRead storage name with
    | error e =>
      rw [pathRolesWrite_unreadable env storage _ e hname hread]
      exact ⟨rfl, rfl⟩
    | ok prior =>
      rw [pathRolesWrite_invalid env storage name raw prior hname hread hraw hbad]
      exact ⟨rfl, rfl⟩
  · intro prior hpd hread
    subst hpd
    have h := pathRolesWrite_put env storage name none prior _ hname hread rfl
    exact ⟨h.1, h.2.2⟩

/-- C11 amended, at concrete inputs: over the stored role `deploy`, the document
`{bad` gets the invalid-policy response and nothing is written, and a request
without `policy_document` field leaves the role with the policy document it
had. -/
theorem pathRolesWrite_policy_witness :
    (pathRolesWrite (sampleEnv "active" false) issuingStorage
      { name := "deploy", policy_document := some "\x7bbad" }).result =
      .ok (some (ErrorResponse "cannot parse policy document: \x7bbad")) ∧
    (pathRolesWrite (sampleEnv "active" false) issuingStorage
      { name := "deploy", policy_document := some "\x7bbad" }).storage = issuingStorage ∧
    roleRead (pathRolesWrite (sampleEnv "active" false) issuingStorage
      { name := "deploy", policy_document := none }).storage "deploy" =
      .ok (some { PolicyDocument := samplePolicy }) :=
  ⟨(pathRolesWrite_policy (sampleEnv "active" false) issuingStorage "deploy"
      (some "\x7bbad") (by decide)).2.1 "\x7bbad" (some { PolicyDocument := samplePolicy })
      rfl (by decide) (by decide) rfl,
   ((pathRolesWrite_policy (sampleEnv "active" false) issuingStorage "deploy"
      (some "\x7bbad") (by decide)).2.2.1 "\x7bbad" rfl (by decide) (by decide)).2,
   ((pathRolesWrite_policy (sampleEnv "active" false) issuingStorage "deploy"
      none (by decide)).2.2.2 (some { PolicyDocument := samplePolicy }) rfl rfl).2 rfl |>.2⟩

/-! ## Token names (C8, C12) -/

theorem bytes_eq (s : String) : bytes s = s.data.flatMap String.utf8EncodeChar := rfl

theorem bytes_append (a b : String) : bytes (a ++ b) = bytes a ++ bytes b := by
  simp [bytes_eq, String.data_append, List.flatMap_append]

/-- A string of ASCII characters has one byte for each character. -/
theorem bytes_length_ascii (l : List Char) (h : ∀ c ∈ l, c.toNat < 128) :
    (l.flatMap String.utf8EncodeChar).length = l.length := by
  induction l with
  | nil => rfl
  | cons c rest ih =>
    have hc : c.toNat < 128 := h c (List.mem_cons_self _ _)
    have h1 : (String.utf8EncodeChar c).length = 1 := by
      rw [String.length_utf8EncodeChar]
      unfold Char.utf8Size
      have : c.val ≤ UInt32.ofNatCore 127 (by decide) := by
        show c.val.toNat ≤ 127
        have : c.val.toNat = c.toNat := rfl
        omega
      rw [if_pos this]
    rw [List.flatMap_cons, List.length_append, h1, ih (fun d hd => h d (List.mem_cons_of_mem _ hd))]
    simp [Nat.add_comm]

/-- On a string of ASCII characters `strings.ToLower` returns a string of ASCII
characters of the same length. -/
theorem ToLower_ascii (env : Env) (role : String) (h : ∀ c ∈ role.toList, c.toNat < 128) :
    (∀ c ∈ (ToLower env role).toList, c.toNat < 128) ∧
    (ToLower env role).toList.length = role.toList.length := by
  have hall : role.toList.all (fun c => decide (c.toNat < 128)) = true := by
    rw [List.all_eq_true]
    intro c hc
    exact decide_eq_true (h c hc)
  unfold ToLower
  dsimp only
  rw [if_pos hall]
  split
  · exact ⟨h, rfl⟩
  · refine ⟨?_, by simp⟩
    intro c hc
    simp only [String.toList, List.mem_map] at hc
    obtain ⟨d, hd, rfl⟩ := hc
    have hd' : d.toNat < 128 := h d hd
    split
    · rename_i hup
      simp only [Bool.and_eq_true, decide_eq_true_eq] at hup
      have h1 : d.toNat ≤ 90 := hup.2
      have h2 : 'a'.toNat - 'A'.toNat = 32 := by decide
      rw [h2]
      have hv : (d.toNat + 32).isValidChar := by
        left
        omega
      rw [Char.ofNat, dif_pos hv]
      show (Char.ofNatAux (d.toNat + 32) hv).val.toNat < 128
      simp only [Char.ofNatAux]
      show d.toNat + 32 < 128
      omega
    · exact hd'

/-- A decimal digit character is one ASCII byte, the digit above `48`. -/
theorem digitChar_byte (k : Nat) (hk : k < 10) :
    String.utf8EncodeChar (Nat.digitChar k) = [UInt8.ofNat (48 + k)] ∧
    (UInt8.ofNat (48 + k)).toNat - 48 = k ∧ (Nat.digitChar k).toNat < 128 := by
  interval_cases k <;> decide

/-- The characters `Nat.toDigitsCore` adds in base ten are decimal digits. -/
theorem toDigitsCore_digit (fuel : Nat) :
    ∀ (n : Nat) (ds : List Char) (c : Char), c ∈ Nat.toDigitsCore 10 fuel n ds →
      c ∈ ds ∨ ∃ k, k < 10 ∧ c = Nat.digitChar k := by
  induction fuel with
  | zero =>
    intro n ds c hc
    exact Or.inl hc
  | succ fuel ih =>
    intro n ds c hc
    unfold Nat.toDigitsCore at hc
    dsimp only at hc
    split at hc
    · rcases List.mem_cons.1 hc with h | h
      · exact Or.inr ⟨n % 10, Nat.mod_lt _ (by decide), h⟩
      · exact Or.inl h
    · rcases ih _ _ _ hc with h | h
      · rcases List.mem_cons.1 h with h | h
        · exact Or.inr ⟨n % 10, Nat.mod_lt _ (by decide), h⟩
        · exact Or.inl h
      · exact Or.inr h

/-- Reading back the bytes of the decimal digits of `n` gives `n`. -/
theorem decimalValue_toDigitsCore (fuel : Nat) :
    ∀ (n : Nat) (ds : List Char), n < fuel →
      ((Nat.toDigitsCore 10 fuel n ds).flatMap String.utf8EncodeChar).foldl
          (fun acc b => acc * 10 + (b.toNat - 48)) 0 =
        (ds.flatMap String.utf8EncodeChar).foldl
          (fun acc b => acc * 10 + (b.toNat - 48)) n := by
  induction fuel with
  | zero => intro n ds h; omega
  | succ fuel ih =>
    intro n ds h
    obtain ⟨hb, hv, -⟩ := digitChar_byte (n % 10) (Nat.mod_lt _ (by decide))
    unfold Nat.toDigitsCore
    dsimp only
    split
    · rename_i h0
      rw [List.flatMap_cons, hb, List.singleton_append, List.foldl_cons, hv]
      congr 1
      omega
    · rename_i h0
      rw [ih (n / 10) _ (by omega), List.flatMap_cons, hb, List.singleton_append,
        List.foldl_cons, hv]
      congr 1
      omega

theorem Nat_repr_data (n : Nat) : (Nat.repr n).data = Nat.toDigits 10 n := rfl

/-- The decimal text of a natural number spells that number. -/
theorem decimalValue_repr (n : Nat) : decimalValue (bytes (Nat.repr n)) = n := by
  unfold decimalValue
  rw [bytes_eq, Nat_repr_data]
  unfold Nat.toDigits
  rw [decimalValue_toDigitsCore (n + 1) n [] (by omega)]
  rfl

/-- The decimal text of a natural number below `10 ^ 19` has at most 19 bytes. -/
theorem bytes_repr_length (n : Nat) (h : n < 10 ^ 19) : (bytes (Nat.repr n)).length ≤ 19 := by
  rw [bytes_eq, Nat_repr_data, bytes_length_ascii]
  · exact Nat.repr_length n 19 (by decide) h
  · intro c hc
    unfold Nat.toDigits at hc
    rcases toDigitsCore_digit _ _ _ _ hc with h' | ⟨k, hk, rfl⟩
    · cases h'
    · exact (digitChar_byte k hk).2.2

/-- The decimal text `%d` of a non-negative timestamp. -/
theorem toString_nonneg (t : Int) (h : 0 ≤ t) : toString t = Nat.repr t.toNat := by
  obtain ⟨n, rfl⟩ := Int.eq_ofNat_of_zero_le h
  rfl

/-- The lowering of one letter in `ToLower` is `Char.toLower`: a letter from `A`
to `Z` moves 32 places up, any other character is kept. -/
theorem lowerLetter_eq (c : Char) :
    (if ('A' ≤ c && c ≤ 'Z') = true then Char.ofNat (c.toNat + ('a'.toNat - 'A'.toNat)) else c) =
      c.toLower := by
  have h2 : 'a'.toNat - 'A'.toNat = 32 := by decide
  rw [h2]
  unfold Char.toLower
  by_cases h : 65 ≤ c.toNat ∧ c.toNat ≤ 90
  · have hb : ('A' ≤ c && c ≤ 'Z') = true := by
      simp only [Bool.and_eq_true, decide_eq_true_eq]
      exact h
    rw [if_pos hb]
    simp only [ge_iff_le]
    rw [if_pos h]
  · have hb : ¬ ('A' ≤ c && c ≤ 'Z') = true := by
      simp only [Bool.and_eq_true, decide_eq_true_eq]
      exact h
    rw [if_neg hb]
    simp only [ge_iff_le]
    rw [if_neg h]

/-- On a string of ASCII characters `ToLower` lowers every character with
`Char.toLower`. -/
theorem ToLower_ascii_eq (env : Env) (s : String) (h : ∀ c ∈ s.toList, c.toNat < 128) :
    ToLower env s = String.mk (s.toList.map Char.toLower) := by
  have hall : s.toList.all (fun c => decide (c.toNat < 128)) = true := by
    rw [List.all_eq_true]
    intro c hc
    exact decide_eq_true (h c hc)
  unfold ToLower
  dsimp only
  rw [if_pos hall]
  split
  · rename_i hno
    have hid : s.toList.map Char.toLower = s.toList := by
      conv_rhs => rw [← List.map_id s.toList]
      apply List.map_congr_left
      intro c hc
      rw [← lowerLetter_eq c]
      have : ¬ ('A' ≤ c && c ≤ 'Z') = true := by
        intro hup
        have hany : s.toList.any (fun c => 'A' ≤ c && c ≤ 'Z') = true :=
          List.any_eq_true.2 ⟨c, hc, hup⟩
        rw [hany] at hno
        cases hno
      rw [if_neg this]
      rfl
    rw [hid]
    rfl
  · congr 1
    apply List.map_congr_left
    intro c _
    exact lowerLetter_eq c

/-- On any other string `ToLower` is the Unicode lowering. -/
theorem ToLower_unicode (env : Env) (s : String) (h : ¬ ∀ c ∈ s.toList, c.toNat < 128) :
    ToLower env s = env.unicodeToLower s := by
  have hall : ¬ s.toList.all (fun c => decide (c.toNat < 128)) = true := by
    rw [List.all_eq_true]
    intro hh
    exact h (fun c hc => of_decide_eq_true (hh c hc))
  unfold ToLower
  dsimp only
  rw [if_neg hall]

/-- C8: `createTokenName` returns the bytes of `vault-<lowered role>-<decimal
timestamp>` cut to their first 120: the result has at most 120 bytes, is an
initial segment of the full name, and is the full name exactly when the full
name has at most 120 bytes.  The lowered role of an ASCII role is the role with
each of the letters `A` to `Z` replaced by the letter 32 places up and every
other character kept (`Char.toLower`), and the Unicode lowering of any other
role; the decimal timestamp of a timestamp that is not negative is the digit
string whose value is the timestamp. -/
theorem createTokenName_spec (env : Env) (role : String) (now : Int) :
    createTokenName env role now =
      (bytes ("vault-" ++ ToLower env role ++ "-" ++ toString now)).take 120 ∧
    (createTokenName env role now).length ≤ 120 ∧
    createTokenName env role now <+: bytes ("vault-" ++ ToLower env role ++ "-" ++ toString now) ∧
    (createTokenName env role now = bytes ("vault-" ++ ToLower env role ++ "-" ++ toString now) ↔
      (bytes ("vault-" ++ ToLower env role ++ "-" ++ toString now)).length ≤ 120) ∧
    ((∀ c ∈ role.toList, c.toNat < 128) →
      ToLower env role = String.mk (role.toList.map Char.toLower) ∧
      (ToLower env role).toList = role.toList.map
        (fun c => if 65 ≤ c.toNat ∧ c.toNat ≤ 90 then Char.ofNat (c.toNat + 32) else c) ∧
      createTokenName env role now =
        (bytes ("vault-" ++ String.mk (role.toList.map Char.toLower) ++ "-" ++
          toString now)).take 120) ∧
    ((¬ ∀ c ∈ role.toList, c.toNat < 128) → ToLower env role = env.unicodeToLower role) ∧
    (0 ≤ now → toString now = Nat.repr now.toNat ∧
      decimalValue (bytes (toString now)) = now.toNat) := by
  have hdef : createTokenName env role now =
      (bytes ("vault-" ++ ToLower env role ++ "-" ++ toString now)).take 120 := by
    unfold createTokenName maxTokenNameLength
    dsimp only
    split
    · rfl
    · rw [List.take_of_length_le (by omega)]
  refine ⟨hdef, ?_, ?_, ?_, ?_, ToLower_unicode env role, ?_⟩
  · rw [hdef, List.length_take]
    omega
  · rw [hdef]
    exact List.take_prefix _ _
  · rw [hdef]
    exact List.take_eq_self_iff _
  · intro hascii
    have hl := ToLower_ascii_eq env role hascii
    refine ⟨hl, ?_, ?_⟩
    · rw [hl]
      rfl
    · rw [hdef, hl]
  · intro h0
    have ht := toString_nonneg now h0
    refine ⟨ht, ?_⟩
    rw [ht, decimalValue_repr]

set_option maxRecDepth 8000 in
/-- C8, at concrete inputs: the role `DePloy` at the timestamp 17 gets the name
`vault-deploy-17`; the characters next to the letters in the ASCII table are
kept; and a role of 120 letters `Q` gets the 120 bytes `vault-` and 114 letters
`q`, the rest of the name being cut. -/
theorem createTokenName_spec_witness :
    ToLower (sampleEnv "active" false) "DePloy" = "deploy" ∧
    createTokenName (sampleEnv "active" false) "DePloy" 17 = bytes "vault-deploy-17" ∧
    ToLower (sampleEnv "active" false) "A-Z_@[9" = "a-z_@[9" ∧
    createTokenName (sampleEnv "active" false) (String.mk (List.replicate 120 'Q')) 17 =
      bytes ("vault-" ++ String.mk (List.replicate 114 'q')) :=
  ⟨((createTokenName_spec (sampleEnv "active" false) "DePloy" 17).2.2.2.2.1
      (by decide)).1.trans (by decide),
   ((createTokenName_spec (sampleEnv "active" false) "DePloy" 17).2.2.2.2.1
      (by decide)).2.2.trans (by decide),
   ((createTokenName_spec (sampleEnv "active" false) "A-Z_@[9" 17).2.2.2.2.1
      (by decide)).1.trans (by decide),
   ((createTokenName_spec (sampleEnv "active" false) (String.mk (List.replicate 120 'Q'))
      17).2.2.2.2.1 (by decide)).2.2.trans (by decide)⟩

/-- For an ASCII role of at most 94 bytes and a timestamp in `[0, 2^63)` the full
name has at most 120 bytes, so `createTokenName` returns it whole: the fixed
text, the lowered role, a dash and the decimal digits of the timestamp. -/
theorem createTokenName_whole (env : Env) (role : String) (t : Int)
    (hascii : ∀ c ∈ role.toList, c.toNat < 128) (hlen : (bytes role).length ≤ 94)
    (h0 : 0 ≤ t) (hlt : t < 2 ^ 63) :
    createTokenName env role t = bytes ("vault-" ++ ToLower env role ++ "-" ++ toString t) ∧
    bytes ("vault-" ++ ToLower env role ++ "-" ++ toString t) =
      bytes ("vault-" ++ ToLower env role ++ "-") ++ bytes (Nat.repr t.toNat) := by
  obtain ⟨hla, hll⟩ := ToLower_ascii env role hascii
  have hsplit : bytes ("vault-" ++ ToLower env role ++ "-" ++ toString t) =
      bytes ("vault-" ++ ToLower env role ++ "-") ++ bytes (Nat.repr t.toNat) := by
    rw [bytes_append, toString_nonneg t h0]
  have hrole : (bytes role).length = role.toList.length := by
    rw [bytes_eq]
    exact bytes_length_ascii _ hascii
  have hlower : (bytes (ToLower env role)).length = role.toList.length := by
    rw [bytes_eq, ← hll]
    exact bytes_length_ascii _ hla
  have hdigits : (bytes (Nat.repr t.toNat)).length ≤ 19 := by
    apply bytes_repr_length
    have : (t.toNat : Int) = t := Int.toNat_of_nonneg h0
    have h63 : (2 : Int) ^ 63 = 9223372036854775808 := by norm_num
    have h19 : (10 : Nat) ^ 19 = 10000000000000000000 := by norm_num
    omega
  have hfix : (bytes "vault-").length = 6 ∧ (bytes "-").length = 1 := by decide
  have hfull : (bytes ("vault-" ++ ToLower env role ++ "-" ++ toString t)).length ≤ 120 := by
    rw [hsplit, bytes_append, bytes_append]
    simp only [List.length_append]
    omega
  refine ⟨?_, hsplit⟩
  unfold createTokenName maxTokenNameLength
  dsimp only
  rw [if_neg (by omega)]

/-- C12: for an ASCII role name of at most 94 bytes and two distinct nanosecond
timestamps in `[0, 2^63)`, the names `createTokenName` produces are the full
names, not truncated, and they are distinct. -/
theorem createTokenName_injective (env : Env) (role : String) (t1 t2 : Int)
    (hascii : ∀ c ∈ role.toList, c.toNat < 128) (hlen : (bytes role).length ≤ 94)
    (h1 : 0 ≤ t1) (h1' : t1 < 2 ^ 63) (h2 : 0 ≤ t2) (h2' : t2 < 2 ^ 63) (hne : t1 ≠ t2) :
    createTokenName env role t1 =
      bytes ("vault-" ++ ToLower env role ++ "-" ++ toString t1) ∧
    createTokenName env role t2 =
      bytes ("vault-" ++ ToLower env role ++ "-" ++ toString t2) ∧
    createTokenName env role t1 ≠ createTokenName env role t2 := by
  obtain ⟨ha, ha'⟩ := createTokenName_whole env role t1 hascii hlen h1 h1'
  obtain ⟨hb, hb'⟩ := createTokenName_whole env role t2 hascii hlen h2 h2'
  refine ⟨ha, hb, ?_⟩
  intro heq
  rw [ha, hb, ha', hb'] at heq
  have hd := congrArg decimalValue (List.append_cancel_left heq)
  rw [decimalValue_repr, decimalValue_repr] at hd
  apply hne
  have e1 : (t1.toNat : Int) = t1 := Int.toNat_of_nonneg h1
  have e2 : (t2.toNat : Int) = t2 := Int.toNat_of_nonneg h2
  omega

set_option maxRecDepth 8000 in
/-- C12, at concrete inputs: the names of the role `deploy` at two consecutive
nanoseconds differ, and for a role of 94 letters at the last two timestamps
below `2^63` the names differ too and have exactly 120 bytes. -/
theorem createTokenName_injective_witness :
    createTokenName (sampleEnv "active" false) "deploy" 1700000000000000000 ≠
      createTokenName (sampleEnv "active" false) "deploy" 1700000000000000001 ∧
    createTokenName (sampleEnv "active" false) (String.mk (List.replicate 94 'a'))
        9223372036854775806 ≠
      createTokenName (sampleEnv "active" false) (String.mk (List.replicate 94 'a'))
        9223372036854775807 ∧
    (createTokenName (sampleEnv "active" false) (String.mk (List.replicate 94 'a'))
        9223372036854775807).length = 120 :=
  ⟨(createTokenName_injective (sampleEnv "active" false) "deploy" 1700000000000000000
    1700000000000000001 (by decide) (by decide) (by decide) (by decide) (by decide)
    (by decide) (by decide)).2.2,
   (createTokenName_injective (sampleEnv "active" false) (String.mk (List.replicate 94 'a'))
    9223372036854775806 9223372036854775807 (by decide) (by decide) (by decide) (by decide)
    (by decide) (by decide) (by decide)).2.2,
   by decide⟩

end Cloudflare
